import Mathlib

/-!
# NodeDumperLibrary: `UNodeDumperLibrary::DumpAllNodes`

A shallow embedding of `NodeDumperLibrary.cpp`.  The reflection catalog, the scratch-node
factory and the property-to-pin-type conversion are engine services; they are inputs of the
run (`Engine`).  The three JSON arrays the run hands to the file writer are its result
(`FOutputArrays`).
-/

namespace NodeDumper

/-! ## Engine strings (`FString`) -/

namespace FString

/-- Engine `TChar::ToLower`: only the letters `A`..`Z` are changed. -/
def ToLower (c : Char) : Char :=
  if 65 ≤ c.toNat ∧ c.toNat ≤ 90 then Char.ofNat (c.toNat + 32) else c

/-- Case-insensitive test that the characters `sub` open the characters `s`. -/
def startsWithChars : List Char → List Char → Bool
  | _, [] => true
  | [], _ :: _ => false
  | c :: cs, d :: ds => ToLower c == ToLower d && startsWithChars cs ds

/-- Index of the first case-insensitive occurrence of `sub`, counted from `i`, or `-1`. -/
def findChars (sub : List Char) : List Char → Nat → Int
  | [], i => if sub.isEmpty then (i : Int) else -1
  | c :: cs, i => if startsWithChars (c :: cs) sub then (i : Int) else findChars sub cs (i + 1)

/-- Engine `FString::Find(SubStr)` with its default `ESearchCase::IgnoreCase`:
the index of the first occurrence, `INDEX_NONE` (`-1`) when there is none. -/
def Find (s SubStr : String) : Int := findChars SubStr.data s.data 0

/-- Engine `FString::Contains(SubStr)` with its default `ESearchCase::IgnoreCase`:
`Find(SubStr) != INDEX_NONE`. -/
def Contains (s SubStr : String) : Bool := Find s SubStr != -1

/-- Engine `FString::StartsWith(InPrefix)` with its default `ESearchCase::IgnoreCase`. -/
def StartsWith (s InPrefix : String) : Bool :=
  !InPrefix.data.isEmpty && startsWithChars s.data InPrefix.data

/-- Engine `FString::Equals(Other)` with its default `ESearchCase::CaseSensitive`. -/
def Equals (s Other : String) : Bool := decide (s = Other)

/-- Engine `operator==` on `FString`: a case-insensitive comparison. -/
def EqualsIgnoreCase (s Other : String) : Bool :=
  s.data.map ToLower == Other.data.map ToLower

/-- Engine `FString::IsEmpty`. -/
def IsEmpty (s : String) : Bool := s.data.isEmpty

/-- Scan of `Replace`: `skip` characters of a matched occurrence are still to be dropped. -/
def replaceChars (From To : List Char) : List Char → Nat → List Char
  | [], _ => []
  | _ :: cs, skip + 1 => replaceChars From To cs skip
  | c :: cs, 0 =>
    if !From.isEmpty && startsWithChars (c :: cs) From then
      To ++ replaceChars From To cs (From.length - 1)
    else c :: replaceChars From To cs 0

/-- Engine `FString::Replace(From, To)` with its default `ESearchCase::IgnoreCase`:
every occurrence of `From`, left to right, is replaced by `To`. -/
def Replace (s From To : String) : String :=
  String.mk (replaceChars From.data To.data s.data 0)

end FString

/-! ## Reflection data -/

/-- Which of `IsA<UScriptStruct>`, `IsA<UClass>`, `IsA<UEnum>` holds of an object. -/
inductive EObjectKind where
  | ScriptStruct
  | Class
  | Enum
  | Other
  deriving DecidableEq, Repr

/-- A `UObject` as far as `GetT3DPath` looks at it. -/
structure UObject where
  PathName : String
  Kind : EObjectKind
  deriving DecidableEq, Repr

/-- Engine function flag `FUNC_BlueprintCallable`. -/
def FUNC_BlueprintCallable : Nat := 0x04000000
/-- Engine function flag `FUNC_BlueprintEvent`. -/
def FUNC_BlueprintEvent : Nat := 0x08000000
/-- Engine function flag `FUNC_BlueprintPure`. -/
def FUNC_BlueprintPure : Nat := 0x10000000
/-- Engine property flag `CPF_BlueprintVisible`. -/
def CPF_BlueprintVisible : Nat := 0x4
/-- Engine property flag `CPF_BlueprintReadOnly`. -/
def CPF_BlueprintReadOnly : Nat := 0x10
/-- Engine property flag `CPF_Deprecated`. -/
def CPF_Deprecated : Nat := 0x20000000

/-- A `UFunction`: its name, the path of its outer object, its flags, and the two
documentation strings `DumpNodeToJSON` reads from it. -/
structure UFunction where
  Name : String
  Outer : String
  FunctionFlags : Nat
  Keywords : String
  ToolTipText : String
  deriving DecidableEq, Repr

/-- Engine `UFunction::HasAnyFunctionFlags`. -/
def UFunction.HasAnyFunctionFlags (Func : UFunction) (FlagsToCheck : Nat) : Bool :=
  (Func.FunctionFlags &&& FlagsToCheck) != 0

/-- An `FProperty`: its name, its flags and its `Keywords` metadata. -/
structure FProperty where
  Name : String
  PropertyFlags : Nat
  Keywords : String
  deriving DecidableEq, Repr

/-- Engine `FProperty::HasAnyPropertyFlags`. -/
def FProperty.HasAnyPropertyFlags (Property : FProperty) (FlagsToCheck : Nat) : Bool :=
  (Property.PropertyFlags &&& FlagsToCheck) != 0

/-- A `UClass`: `Functions` is what `TFieldIterator<UFunction>` yields for it (inherited
functions included), `Properties` what `TFieldIterator<FProperty>` yields with
`EFieldIteratorFlags::ExcludeSuper`. -/
structure UClass where
  Name : String
  PathName : String
  Functions : List UFunction
  Properties : List FProperty
  deriving DecidableEq, Repr

/-- A class seen as a `UObject`: it is a `UClass`. -/
def UClass.toUObject (C : UClass) : UObject := ⟨C.PathName, EObjectKind.Class⟩

/-! ## Graph pins and scratch nodes -/

inductive EPinContainerType where
  | None
  | Array
  | Set
  | Map
  deriving DecidableEq, Repr

inductive EEdGraphPinDirection where
  | EGPD_Input
  | EGPD_Output
  deriving DecidableEq, Repr

structure FEdGraphPinType where
  PinCategory : String
  PinSubCategory : String
  PinSubCategoryObject : Option UObject
  ContainerType : EPinContainerType
  bIsReference : Bool
  bIsConst : Bool
  deriving DecidableEq, Repr

structure UEdGraphPin where
  PinName : String
  PinType : FEdGraphPinType
  bHidden : Bool
  DefaultValue : String
  Direction : EEdGraphPinDirection
  deriving DecidableEq, Repr

/-- A scratch `UK2Node` after `AllocateDefaultPins`: its class name, its list-view title,
the target function when the node is a `UK2Node_CallFunction` that resolves one, and its
pins in order. -/
structure UK2Node where
  ClassName : String
  NodeTitle : String
  TargetFunction : Option UFunction
  Pins : List UEdGraphPin
  deriving DecidableEq, Repr

/-- The engine services one run consumes. -/
structure Engine where
  /-- What `TObjectIterator<UClass>` enumerates. -/
  Classes : List UClass
  /-- The node made by `NewObject<UK2Node_CallFunction>` and `SetFromFunction(Func)`. -/
  NewCallFunctionNode : UFunction → UK2Node
  /-- The node made by `NewObject<UK2Node_Event>` and `SetExternalMember(Func, Class)`. -/
  NewEventNode : UFunction → UClass → UK2Node
  /-- The node made by `NewObject<UK2Node_IfThenElse>`. -/
  NewIfThenElseNode : UK2Node
  /-- The node made by `NewObject<UK2Node_ExecutionSequence>`. -/
  NewExecutionSequenceNode : UK2Node
  /-- Engine `UEdGraphSchema_K2::ConvertPropertyToPinType`. -/
  ConvertPropertyToPinType : FProperty → FEdGraphPinType

/-! ## JSON values -/

/-- A field value of a pin object: a string or a boolean. -/
inductive FJsonLeaf where
  | String (s : String)
  | Boolean (b : Bool)
  deriving DecidableEq, Repr

/-- A JSON object as an ordered field list. -/
abbrev FJsonFields (α : Type) := List (String × α)

/-- The JSON object of one pin. -/
abbrev FPinObject := FJsonFields FJsonLeaf

/-- A field value of a node object: a string or an array of pin objects. -/
inductive FJsonValue where
  | String (s : String)
  | Array (a : List FPinObject)
  deriving DecidableEq, Repr

/-- The JSON object of one node descriptor. -/
abbrev FJsonObject := FJsonFields FJsonValue

/-- Engine `FJsonObject::SetField`: a field that exists is overwritten in place, a new one
is added at the end. -/
def SetField {α : Type} : FJsonFields α → String → α → FJsonFields α
  | [], k, v => [(k, v)]
  | (k', v') :: o, k, v => if k' = k then (k, v) :: o else (k', v') :: SetField o k v

/-- The value of field `k`, when the object has it. -/
def GetField {α : Type} : FJsonFields α → String → Option α
  | [], _ => none
  | (k', v') :: o, k => if k' = k then some v' else GetField o k

namespace FPinObject

def SetStringField (o : FPinObject) (k v : String) : FPinObject := SetField o k (FJsonLeaf.String v)

def SetBoolField (o : FPinObject) (k : String) (b : Bool) : FPinObject :=
  SetField o k (FJsonLeaf.Boolean b)

end FPinObject

namespace FJsonObject

def SetStringField (o : FJsonObject) (k v : String) : FJsonObject :=
  SetField o k (FJsonValue.String v)

def SetArrayField (o : FJsonObject) (k : String) (a : List FPinObject) : FJsonObject :=
  SetField o k (FJsonValue.Array a)

/-- The pin objects under the array field `k` (none when the field is absent). -/
def pins (o : FJsonObject) (k : String) : List FPinObject :=
  match GetField o k with
  | some (FJsonValue.Array a) => a
  | _ => []

end FJsonObject

/-- The three data containers of `DumpAllNodes`. -/
structure FOutputArrays where
  FullArray : List FJsonObject
  EssentialsArray : List FJsonObject
  DebugArray : List FJsonObject
  deriving DecidableEq, Repr

/-! ## Helpers of `DumpAllNodes` -/

/-- Lambda `GetT3DPath` (lines 36-43). -/
def GetT3DPath (Obj : Option UObject) : String :=
  match Obj with
  | none => "None"
  | some Obj =>
    let Path := Obj.PathName
    if Obj.Kind = EObjectKind.ScriptStruct then "/Script/CoreUObject.ScriptStruct'" ++ Path ++ "'"
    else if Obj.Kind = EObjectKind.Class then "/Script/CoreUObject.Class'" ++ Path ++ "'"
    else if Obj.Kind = EObjectKind.Enum then "/Script/CoreUObject.Enum'" ++ Path ++ "'"
    else Path

/-- Lambda `GetContainerTypeString` (lines 45-52). -/
def GetContainerTypeString (ContainerType : EPinContainerType) : String :=
  match ContainerType with
  | EPinContainerType.Array => "Array"
  | EPinContainerType.Set => "Set"
  | EPinContainerType.Map => "Map"
  | _ => "None"

namespace DumpNodeToJSON

/-- Local `Name` (lines 60-61). -/
def Name (Node : UK2Node) (FuncName : String) : String :=
  if FString.IsEmpty FuncName then Node.NodeTitle else FuncName

/-- Local `CleanName` (line 64). -/
def CleanName (Node : UK2Node) (FuncName : String) : String :=
  FString.Replace (Name Node FuncName) " " ""

/-- Locals `Keywords` and `ToolTip` (lines 72-79). -/
def Metadata (Node : UK2Node) : String × String :=
  match Node.TargetFunction with
  | some Func => (Func.Keywords, Func.ToolTipText)
  | none => ("", "")

/-- Local `bHidden` (lines 97-99). -/
def bHidden (Pin : UEdGraphPin) : Bool :=
  let bHidden := Pin.bHidden
  let bHidden := if FString.EqualsIgnoreCase Pin.PinName "WorldContextObject" then true else bHidden
  let bHidden := if FString.EqualsIgnoreCase Pin.PinName "self" then true else bHidden
  bHidden

/-- The object `PinObj` built in the body of the pin loop (lines 88-102). -/
def PinObj (Pin : UEdGraphPin) : FPinObject :=
  let PinObj : FPinObject := []
  let PinObj := PinObj.SetStringField "PinName" Pin.PinName
  let PinObj := PinObj.SetStringField "PinCategory" Pin.PinType.PinCategory
  let PinObj := PinObj.SetStringField "PinSubCategory" Pin.PinType.PinSubCategory
  let PinObj := PinObj.SetStringField "PinSubCategoryObject"
    (GetT3DPath Pin.PinType.PinSubCategoryObject)
  let PinObj := PinObj.SetStringField "ContainerType"
    (GetContainerTypeString Pin.PinType.ContainerType)
  let PinObj := PinObj.SetBoolField "bIsReference" Pin.PinType.bIsReference
  let PinObj := PinObj.SetBoolField "bIsConst" Pin.PinType.bIsConst
  let PinObj := PinObj.SetBoolField "bHidden" (bHidden Pin)
  let PinObj := PinObj.SetStringField "DefaultValue" Pin.DefaultValue
  PinObj

/-- One turn of the pin loop (lines 87-106) on the pair `(Inputs, Outputs)`. -/
def PinLoopBody (Acc : List FPinObject × List FPinObject) (Pin : UEdGraphPin) :
    List FPinObject × List FPinObject :=
  if Pin.Direction = EEdGraphPinDirection.EGPD_Input then (Acc.1 ++ [PinObj Pin], Acc.2)
  else (Acc.1, Acc.2 ++ [PinObj Pin])

/-- Locals `Inputs` and `Outputs` after the pin loop. -/
def Pins (Node : UK2Node) : List FPinObject × List FPinObject :=
  Node.Pins.foldl PinLoopBody ([], [])

/-- The descriptor `Val` (lines 58-111). -/
def Val (Node : UK2Node) (NodeTypeOverride MemberParent FuncName : String) : FJsonObject :=
  let NodeObj : FJsonObject := []
  let NodeObj := NodeObj.SetStringField "Name" (Name Node FuncName)
  let NodeObj := NodeObj.SetStringField "NodeType"
    (if FString.IsEmpty NodeTypeOverride then Node.ClassName else NodeTypeOverride)
  let NodeObj := NodeObj.SetStringField "FunctionName" FuncName
  let NodeObj := NodeObj.SetStringField "MemberParent" MemberParent
  let NodeObj := NodeObj.SetStringField "Keywords" (Metadata Node).1
  let NodeObj := NodeObj.SetStringField "ToolTip" (Metadata Node).2
  let NodeObj := NodeObj.SetArrayField "Inputs" (Pins Node).1
  let NodeObj := NodeObj.SetArrayField "Outputs" (Pins Node).2
  NodeObj

/-- Local `bIsDebug` (line 116). -/
def bIsDebug (CleanName : String) : Bool :=
  FString.Contains CleanName "PrintString" || FString.Contains CleanName "DrawDebug"

/-- Local `bIsEssential` (lines 119-131). -/
def bIsEssential (NodeTypeOverride MemberParent FuncName : String) : Bool :=
  let bIsEssential := false
  let bIsEssential :=
    if FString.Contains NodeTypeOverride "IfThenElse" ||
        FString.Contains NodeTypeOverride "ExecutionSequence" then true else bIsEssential
  let bIsEssential :=
    if FString.Equals FuncName "Delay" || FString.Equals FuncName "RetriggerableDelay" ||
        FString.Equals FuncName "IsValid" then true else bIsEssential
  let bIsEssential :=
    if FString.Contains MemberParent "KismetMathLibrary" then
      if FString.Contains FuncName "Add" || FString.Contains FuncName "Subtract" ||
          FString.Contains FuncName "Multiply" || FString.Contains FuncName "Divide" ||
          FString.Contains FuncName "Equal" || FString.Contains FuncName "Less" ||
          FString.Contains FuncName "Greater" || FString.Contains FuncName "Boolean" ||
          FString.Contains FuncName "Vector" then true else bIsEssential
    else bIsEssential
  bIsEssential

end DumpNodeToJSON

/-- Lambda `DumpNodeToJSON` (lines 55-136), the captured arrays passed explicitly. -/
def DumpNodeToJSON (Arrays : FOutputArrays) (Node : UK2Node)
    (NodeTypeOverride MemberParent FuncName : String) : FOutputArrays :=
  let Val := DumpNodeToJSON.Val Node NodeTypeOverride MemberParent FuncName
  let FullArray := Arrays.FullArray ++ [Val]
  let DebugArray :=
    if DumpNodeToJSON.bIsDebug (DumpNodeToJSON.CleanName Node FuncName) then
      Arrays.DebugArray ++ [Val]
    else Arrays.DebugArray
  let EssentialsArray :=
    if DumpNodeToJSON.bIsEssential NodeTypeOverride MemberParent FuncName then
      Arrays.EssentialsArray ++ [Val]
    else Arrays.EssentialsArray
  ⟨FullArray, EssentialsArray, DebugArray⟩

/-! ## The walk -/

/-- Body of the function loop (lines 149-161) for the class `CurrentClass`. -/
def FunctionLoopBody (E : Engine) (CurrentClass : UClass) (Arrays : FOutputArrays)
    (Func : UFunction) : FOutputArrays :=
  if Func.Outer ≠ CurrentClass.PathName then Arrays
  else if Func.HasAnyFunctionFlags (FUNC_BlueprintCallable ||| FUNC_BlueprintPure) then
    DumpNodeToJSON Arrays (E.NewCallFunctionNode Func) "K2Node_CallFunction"
      (GetT3DPath (some CurrentClass.toUObject)) Func.Name
  else if Func.HasAnyFunctionFlags FUNC_BlueprintEvent &&
      FString.Find Func.Name "ExecuteUbergraph" == -1 then
    DumpNodeToJSON Arrays (E.NewEventNode Func CurrentClass) "K2Node_Event"
      (GetT3DPath (some CurrentClass.toUObject)) Func.Name
  else Arrays

/-- The getter's `SelfPin` (lines 196-201); the setter builds the same object (lines 242-247). -/
def SelfPin (MemberPath : String) : FPinObject :=
  let SelfPin : FPinObject := []
  let SelfPin := SelfPin.SetStringField "PinName" "self"
  let SelfPin := SelfPin.SetStringField "PinCategory" "object"
  let SelfPin := SelfPin.SetStringField "PinSubCategory" "self"
  let SelfPin := SelfPin.SetStringField "PinSubCategoryObject" MemberPath
  let SelfPin := SelfPin.SetBoolField "bIsHidden" false
  SelfPin

/-- The getter's `OutPin` (lines 205-212). -/
def OutPin (VarName : String) (PinType : FEdGraphPinType) : FPinObject :=
  let OutPin : FPinObject := []
  let OutPin := OutPin.SetStringField "PinName" VarName
  let OutPin := OutPin.SetStringField "PinCategory" PinType.PinCategory
  let OutPin := OutPin.SetStringField "PinSubCategory" PinType.PinSubCategory
  let OutPin := OutPin.SetStringField "PinSubCategoryObject"
    (GetT3DPath PinType.PinSubCategoryObject)
  let OutPin := OutPin.SetStringField "ContainerType"
    (GetContainerTypeString PinType.ContainerType)
  let OutPin := OutPin.SetBoolField "bIsReference" PinType.bIsReference
  let OutPin := OutPin.SetBoolField "bIsConst" true
  OutPin

/-- The descriptor `GetNode` (lines 185-216). -/
def GetNode (Property : FProperty) (MemberPath : String) (PinType : FEdGraphPinType) :
    FJsonObject :=
  let VarName := Property.Name
  let GetNode : FJsonObject := []
  let GetNode := GetNode.SetStringField "Name" ("Get " ++ VarName)
  let GetNode := GetNode.SetStringField "NodeType" "K2Node_VariableGet"
  let GetNode := GetNode.SetStringField "FunctionName" VarName
  let GetNode := GetNode.SetStringField "MemberParent" MemberPath
  let GetNode := GetNode.SetStringField "Keywords" Property.Keywords
  let GetNode := GetNode.SetStringField "ToolTip" ("Get " ++ VarName)
  let Inputs : List FPinObject := []
  let Outputs : List FPinObject := []
  let Inputs := Inputs ++ [SelfPin MemberPath]
  let Outputs := Outputs ++ [OutPin VarName PinType]
  let GetNode := GetNode.SetArrayField "Inputs" Inputs
  let GetNode := GetNode.SetArrayField "Outputs" Outputs
  GetNode

/-- The setter's `ExecIn` (lines 236-238). -/
def ExecIn : FPinObject :=
  let ExecIn : FPinObject := []
  let ExecIn := ExecIn.SetStringField "PinName" "execute"
  let ExecIn := ExecIn.SetStringField "PinCategory" "exec"
  ExecIn

/-- The setter's `ValIn` (lines 251-256). -/
def ValIn (VarName : String) (PinType : FEdGraphPinType) : FPinObject :=
  let ValIn : FPinObject := []
  let ValIn := ValIn.SetStringField "PinName" VarName
  let ValIn := ValIn.SetStringField "PinCategory" PinType.PinCategory
  let ValIn := ValIn.SetStringField "PinSubCategory" PinType.PinSubCategory
  let ValIn := ValIn.SetStringField "PinSubCategoryObject"
    (GetT3DPath PinType.PinSubCategoryObject)
  let ValIn := ValIn.SetStringField "ContainerType"
    (GetContainerTypeString PinType.ContainerType)
  ValIn

/-- The setter's `ExecOut` (lines 260-262). -/
def ExecOut : FPinObject :=
  let ExecOut : FPinObject := []
  let ExecOut := ExecOut.SetStringField "PinName" "then"
  let ExecOut := ExecOut.SetStringField "PinCategory" "exec"
  ExecOut

/-- The setter's `ValOut` (lines 266-271). -/
def ValOut (VarName : String) (PinType : FEdGraphPinType) : FPinObject :=
  let ValOut : FPinObject := []
  let ValOut := ValOut.SetStringField "PinName" ("Output_" ++ VarName)
  let ValOut := ValOut.SetStringField "PinCategory" PinType.PinCategory
  let ValOut := ValOut.SetStringField "PinSubCategory" PinType.PinSubCategory
  let ValOut := ValOut.SetStringField "PinSubCategoryObject"
    (GetT3DPath PinType.PinSubCategoryObject)
  let ValOut := ValOut.SetStringField "ContainerType"
    (GetContainerTypeString PinType.ContainerType)
  ValOut

/-- The descriptor `SetNode` (lines 225-275). -/
def SetNode (Property : FProperty) (MemberPath : String) (PinType : FEdGraphPinType) :
    FJsonObject :=
  let VarName := Property.Name
  let SetNode : FJsonObject := []
  let SetNode := SetNode.SetStringField "Name" ("Set " ++ VarName)
  let SetNode := SetNode.SetStringField "NodeType" "K2Node_VariableSet"
  let SetNode := SetNode.SetStringField "FunctionName" VarName
  let SetNode := SetNode.SetStringField "MemberParent" MemberPath
  let SetNode := SetNode.SetStringField "Keywords" Property.Keywords
  let SetNode := SetNode.SetStringField "ToolTip" ("Set " ++ VarName)
  let Inputs : List FPinObject := []
  let Outputs : List FPinObject := []
  let Inputs := Inputs ++ [ExecIn]
  let Inputs := Inputs ++ [SelfPin MemberPath]
  let Inputs := Inputs ++ [ValIn VarName PinType]
  let Outputs := Outputs ++ [ExecOut]
  let Outputs := Outputs ++ [ValOut VarName PinType]
  let SetNode := SetNode.SetArrayField "Inputs" Inputs
  let SetNode := SetNode.SetArrayField "Outputs" Outputs
  SetNode

/-- Body of the property loop (lines 169-277) for the class `CurrentClass`. -/
def PropertyLoopBody (E : Engine) (CurrentClass : UClass) (Arrays : FOutputArrays)
    (Property : FProperty) : FOutputArrays :=
  if !Property.HasAnyPropertyFlags CPF_BlueprintVisible then Arrays
  else if Property.HasAnyPropertyFlags CPF_Deprecated then Arrays
  else
    let MemberPath := GetT3DPath (some CurrentClass.toUObject)
    let PinType := E.ConvertPropertyToPinType Property
    let Arrays : FOutputArrays :=
      { Arrays with FullArray := Arrays.FullArray ++ [GetNode Property MemberPath PinType] }
    if !Property.HasAnyPropertyFlags CPF_BlueprintReadOnly then
      { Arrays with FullArray := Arrays.FullArray ++ [SetNode Property MemberPath PinType] }
    else Arrays

/-- Test of the class filter (line 144): the class is skipped. -/
def IsSkippedClass (CurrentClass : UClass) : Bool :=
  FString.StartsWith CurrentClass.Name "SKEL_" || FString.StartsWith CurrentClass.Name "REINST_"

/-- Body of the class loop (lines 143-278). -/
def ClassLoopBody (E : Engine) (Arrays : FOutputArrays) (CurrentClass : UClass) :
    FOutputArrays :=
  if IsSkippedClass CurrentClass then Arrays
  else
    let Arrays := CurrentClass.Functions.foldl (FunctionLoopBody E CurrentClass) Arrays
    CurrentClass.Properties.foldl (PropertyLoopBody E CurrentClass) Arrays

/-- The run `UNodeDumperLibrary::DumpAllNodes` up to the save step (lines 31-286): the
three arrays that are then serialized to `UEBlueprintLibrary_Full.json`,
`UEBlueprintLibrary_Essentials.json` and `UEBlueprintLibrary_Debug.json`. -/
def DumpAllNodes (E : Engine) : FOutputArrays :=
  let Arrays : FOutputArrays := ⟨[], [], []⟩
  let Arrays := E.Classes.foldl (ClassLoopBody E) Arrays
  let Arrays := DumpNodeToJSON Arrays E.NewIfThenElseNode "K2Node_IfThenElse" "None" "Branch"
  let Arrays :=
    DumpNodeToJSON Arrays E.NewExecutionSequenceNode "K2Node_ExecutionSequence" "None" "Sequence"
  Arrays

/-! ## Vocabulary of the statements -/

/-- No descriptor in any array. -/
def FOutputArrays.empty : FOutputArrays := ⟨[], [], []⟩

/-- Array-wise concatenation: what a step adds comes after what was there. -/
def FOutputArrays.append (a b : FOutputArrays) : FOutputArrays :=
  ⟨a.FullArray ++ b.FullArray, a.EssentialsArray ++ b.EssentialsArray,
    a.DebugArray ++ b.DebugArray⟩

/-- The descriptor is a variable accessor: its `NodeType` is `K2Node_VariableGet` or
`K2Node_VariableSet`. -/
def IsAccessor (d : FJsonObject) : Prop :=
  GetField d "NodeType" = some (FJsonValue.String "K2Node_VariableGet") ∨
    GetField d "NodeType" = some (FJsonValue.String "K2Node_VariableSet")

/-- The descriptor `d` is the accessor of node type `NodeType` for the property `Property`
of the class `C`: it carries that node type, the property's name as `FunctionName` and the
class's path as `MemberParent`. -/
def IsAccessorFor (NodeType : String) (C : UClass) (Property : FProperty) (d : FJsonObject) :
    Bool :=
  decide (GetField d "NodeType" = some (FJsonValue.String NodeType)) &&
    decide (GetField d "FunctionName" = some (FJsonValue.String Property.Name)) &&
    decide (GetField d "MemberParent" =
      some (FJsonValue.String (GetT3DPath (some C.toUObject))))

/-- The `PinName` fields of a list of pin objects, in order. -/
def PinNames (Pins : List FPinObject) : List (Option FJsonLeaf) :=
  Pins.map (fun p => GetField p "PinName")

/-- Catalog well-formedness: no two enumerated classes share a path, and no two properties
declared on one class share a name. -/
def WellFormed (E : Engine) : Prop :=
  (E.Classes.map UClass.PathName).Nodup ∧
    ∀ C ∈ E.Classes, (C.Properties.map FProperty.Name).Nodup

/-- The debug rule in the words of the specification, read off the descriptor: its display
name with the spaces removed contains `PrintString` or `DrawDebug`. -/
def DebugRule (d : FJsonObject) : Prop :=
  ∃ n, GetField d "Name" = some (FJsonValue.String n) ∧
    (FString.Contains (FString.Replace n " " "") "PrintString" = true ∨
      FString.Contains (FString.Replace n " " "") "DrawDebug" = true)

/-- The three essentials rules in the words of the specification, on a node-type tag `t`,
an owner path `m` and a member name `f`. -/
def EssentialsRuleOn (t m f : String) : Prop :=
  (FString.Contains t "IfThenElse" = true ∨ FString.Contains t "ExecutionSequence" = true) ∨
  (f = "Delay" ∨ f = "RetriggerableDelay" ∨ f = "IsValid") ∨
  (FString.Contains m "KismetMathLibrary" = true ∧
    (FString.Contains f "Add" = true ∨ FString.Contains f "Subtract" = true ∨
      FString.Contains f "Multiply" = true ∨ FString.Contains f "Divide" = true ∨
      FString.Contains f "Equal" = true ∨ FString.Contains f "Less" = true ∨
      FString.Contains f "Greater" = true ∨ FString.Contains f "Boolean" = true ∨
      FString.Contains f "Vector" = true))

/-- The essentials rules read off the descriptor's `NodeType`, `MemberParent` and
`FunctionName` fields. -/
def EssentialsRule (d : FJsonObject) : Prop :=
  ∃ t m f, GetField d "NodeType" = some (FJsonValue.String t) ∧
    GetField d "MemberParent" = some (FJsonValue.String m) ∧
    GetField d "FunctionName" = some (FJsonValue.String f) ∧ EssentialsRuleOn t m f

/-- The container shapes in the words of the specification (section 3): `None`, `Array`,
`Set`, `Map`. -/
def ContainerShapeName : EPinContainerType → String
  | EPinContainerType.None => "None"
  | EPinContainerType.Array => "Array"
  | EPinContainerType.Set => "Set"
  | EPinContainerType.Map => "Map"

/-- The type-path rendering in the words of the specification (section 4.3): a referenced
struct, class or enum is rendered as module root, reflection kind and quoted path, any
other object as its bare path; a pin type with no referenced object is rendered `None`. -/
def ReferencedTypePath : Option UObject → String
  | none => "None"
  | some ⟨Path, EObjectKind.ScriptStruct⟩ => "/Script/CoreUObject.ScriptStruct'" ++ Path ++ "'"
  | some ⟨Path, EObjectKind.Class⟩ => "/Script/CoreUObject.Class'" ++ Path ++ "'"
  | some ⟨Path, EObjectKind.Enum⟩ => "/Script/CoreUObject.Enum'" ++ Path ++ "'"
  | some ⟨Path, EObjectKind.Other⟩ => Path

/-- The pin object carries the category, subcategory, referenced type and container shape
of the pin type `PinType`, the last two in the rendering of the specification. -/
def CarriesPinType (p : FPinObject) (PinType : FEdGraphPinType) : Prop :=
  GetField p "PinCategory" = some (FJsonLeaf.String PinType.PinCategory) ∧
  GetField p "PinSubCategory" = some (FJsonLeaf.String PinType.PinSubCategory) ∧
  GetField p "PinSubCategoryObject" =
    some (FJsonLeaf.String (ReferencedTypePath PinType.PinSubCategoryObject)) ∧
  GetField p "ContainerType" =
    some (FJsonLeaf.String (ContainerShapeName PinType.ContainerType))

/-- The descriptor the run emits for the event `Func` declared on `C`. -/
def EventDescriptor (E : Engine) (C : UClass) (Func : UFunction) : FJsonObject :=
  DumpNodeToJSON.Val (E.NewEventNode Func C) "K2Node_Event"
    (GetT3DPath (some C.toUObject)) Func.Name

/-- The calls of `DumpNodeToJSON` a run makes (lines 155, 160, 283, 286): `Node` is dumped
with the arguments `t`, `m`, `f`. -/
def IsDumpCall (E : Engine) (Node : UK2Node) (t m f : String) : Prop :=
  (∃ C ∈ E.Classes, IsSkippedClass C = false ∧ ∃ Func ∈ C.Functions,
    Func.Outer = C.PathName ∧
    Func.HasAnyFunctionFlags (FUNC_BlueprintCallable ||| FUNC_BlueprintPure) = true ∧
    Node = E.NewCallFunctionNode Func ∧ t = "K2Node_CallFunction" ∧
    m = GetT3DPath (some C.toUObject) ∧ f = Func.Name) ∨
  (∃ C ∈ E.Classes, IsSkippedClass C = false ∧ ∃ Func ∈ C.Functions,
    Func.Outer = C.PathName ∧
    Func.HasAnyFunctionFlags (FUNC_BlueprintCallable ||| FUNC_BlueprintPure) = false ∧
    Func.HasAnyFunctionFlags FUNC_BlueprintEvent = true ∧
    FString.Find Func.Name "ExecuteUbergraph" = -1 ∧
    Node = E.NewEventNode Func C ∧ t = "K2Node_Event" ∧
    m = GetT3DPath (some C.toUObject) ∧ f = Func.Name) ∨
  (Node = E.NewIfThenElseNode ∧ t = "K2Node_IfThenElse" ∧ m = "None" ∧ f = "Branch") ∨
  (Node = E.NewExecutionSequenceNode ∧ t = "K2Node_ExecutionSequence" ∧ m = "None" ∧
    f = "Sequence")

/-! ## A small catalog -/

/-- A pin type with no referenced type object. -/
def demoPinType (PinCategory : String) : FEdGraphPinType :=
  ⟨PinCategory, "", none, EPinContainerType.None, false, false⟩

/-- Pins of a call node: none is declared hidden. -/
def demoCallPins : List UEdGraphPin :=
  [⟨"execute", demoPinType "exec", false, "", EEdGraphPinDirection.EGPD_Input⟩,
   ⟨"then", demoPinType "exec", false, "", EEdGraphPinDirection.EGPD_Output⟩,
   ⟨"self", demoPinType "object", false, "", EEdGraphPinDirection.EGPD_Input⟩,
   ⟨"WorldContextObject", demoPinType "object", false, "", EEdGraphPinDirection.EGPD_Input⟩,
   ⟨"ReturnValue", demoPinType "real", false, "", EEdGraphPinDirection.EGPD_Output⟩]

def demoAddMath : UFunction :=
  ⟨"Add_VectorVector", "/Script/Engine.KismetMathLibrary",
    FUNC_BlueprintCallable ||| FUNC_BlueprintPure, "+ add plus", "Vector addition"⟩

def demoAddOther : UFunction :=
  ⟨"Add_VectorVector", "/Script/MyProject.ScoreKeeper", FUNC_BlueprintCallable, "", ""⟩

def demoMathLibrary : UClass :=
  { Name := "KismetMathLibrary", PathName := "/Script/Engine.KismetMathLibrary",
    Functions := [demoAddMath], Properties := [] }

def demoPrintString : UFunction :=
  ⟨"PrintString", "/Script/Engine.KismetSystemLibrary", FUNC_BlueprintCallable, "log print",
    "Prints a string to the log"⟩

def demoDelayCall : UFunction :=
  ⟨"Delay", "/Script/Engine.KismetSystemLibrary", FUNC_BlueprintCallable, "sleep", ""⟩

def demoSystemLibrary : UClass :=
  { Name := "KismetSystemLibrary", PathName := "/Script/Engine.KismetSystemLibrary",
    Functions := [demoPrintString, demoDelayCall], Properties := [] }

def demoScore : FProperty := ⟨"Score", CPF_BlueprintVisible, ""⟩

def demoDrawDebug : FProperty :=
  ⟨"bDrawDebug", CPF_BlueprintVisible ||| CPF_BlueprintReadOnly, ""⟩

def demoDelay : FProperty := ⟨"Delay", CPF_BlueprintVisible, ""⟩

def demoOldScore : FProperty := ⟨"OldScore", CPF_BlueprintVisible ||| CPF_Deprecated, ""⟩

def demoExecute : FProperty := ⟨"execute", CPF_BlueprintVisible, ""⟩

def demoScoreKeeper : UClass :=
  { Name := "ScoreKeeper", PathName := "/Script/MyProject.ScoreKeeper",
    Functions := [demoAddOther],
    Properties := [demoScore, demoDrawDebug, demoDelay, demoOldScore, demoExecute] }

/-- The pin type every property of the small catalog converts to: a number. -/
def demoRealPinType : FEdGraphPinType :=
  ⟨"real", "double", none, EPinContainerType.None, false, false⟩

def demoEngine : Engine :=
  { Classes := [demoMathLibrary, demoSystemLibrary, demoScoreKeeper],
    NewCallFunctionNode := fun Func =>
      ⟨"K2Node_CallFunction", Func.Name, some Func, demoCallPins⟩,
    NewEventNode := fun Func _ => ⟨"K2Node_Event", Func.Name, none, []⟩,
    NewIfThenElseNode := ⟨"K2Node_IfThenElse", "Branch", none, []⟩,
    NewExecutionSequenceNode := ⟨"K2Node_ExecutionSequence", "Sequence", none, []⟩,
    ConvertPropertyToPinType := fun _ => demoRealPinType }

/-! ## Three more catalogs -/

def demoEnemyHealth : FProperty := ⟨"Health", CPF_BlueprintVisible, ""⟩

/-- A compiler-generated skeleton class. -/
def demoSkelEnemy : UClass :=
  { Name := "SKEL_Enemy_C", PathName := "/Game/Enemy.SKEL_Enemy_C",
    Functions := [], Properties := [demoEnemyHealth] }

def demoSkelEngine : Engine :=
  { demoEngine with Classes := [demoSkelEnemy] }

def demoWaypoints : FProperty := ⟨"Waypoints", CPF_BlueprintVisible, ""⟩

/-- The pin type of an array of `FVector`. -/
def demoVectorArrayPinType : FEdGraphPinType :=
  ⟨"struct", "", some ⟨"/Script/CoreUObject.Vector", EObjectKind.ScriptStruct⟩,
    EPinContainerType.Array, false, false⟩

def demoPatrol : UClass :=
  { Name := "Patrol", PathName := "/Script/MyProject.Patrol",
    Functions := [], Properties := [demoWaypoints] }

def demoPatrolEngine : Engine :=
  { demoEngine with
    Classes := [demoPatrol], ConvertPropertyToPinType := fun _ => demoVectorArrayPinType }

/-- The class path `GetT3DPath` renders for the class `ScoreKeeper` of the small catalog. -/
def demoScoreKeeperPath : String := "/Script/CoreUObject.Class'/Script/MyProject.ScoreKeeper'"

/-- The descriptor the run emits for the call of `Func` declared on `C`. -/
def CallDescriptor (E : Engine) (C : UClass) (Func : UFunction) : FJsonObject :=
  DumpNodeToJSON.Val (E.NewCallFunctionNode Func) "K2Node_CallFunction"
    (GetT3DPath (some C.toUObject)) Func.Name

/-- What `a` holds sits, array by array and in order, inside what `b` holds. -/
def FOutputArrays.Within (a b : FOutputArrays) : Prop :=
  ∃ pre post : FOutputArrays, b = pre.append (a.append post)

/-! ## Normal forms of the emitted objects -/

theorem Val_eq (Node : UK2Node) (NodeTypeOverride MemberParent FuncName : String) :
    DumpNodeToJSON.Val Node NodeTypeOverride MemberParent FuncName =
      [("Name", FJsonValue.String (DumpNodeToJSON.Name Node FuncName)),
       ("NodeType", FJsonValue.String
          (if FString.IsEmpty NodeTypeOverride then Node.ClassName else NodeTypeOverride)),
       ("FunctionName", FJsonValue.String FuncName),
       ("MemberParent", FJsonValue.String MemberParent),
       ("Keywords", FJsonValue.String (DumpNodeToJSON.Metadata Node).1),
       ("ToolTip", FJsonValue.String (DumpNodeToJSON.Metadata Node).2),
       ("Inputs", FJsonValue.Array (DumpNodeToJSON.Pins Node).1),
       ("Outputs", FJsonValue.Array (DumpNodeToJSON.Pins Node).2)] := by
  simp [DumpNodeToJSON.Val, FJsonObject.SetStringField, FJsonObject.SetArrayField, SetField]

theorem PinObj_eq (Pin : UEdGraphPin) :
    DumpNodeToJSON.PinObj Pin =
      [("PinName", FJsonLeaf.String Pin.PinName),
       ("PinCategory", FJsonLeaf.String Pin.PinType.PinCategory),
       ("PinSubCategory", FJsonLeaf.String Pin.PinType.PinSubCategory),
       ("PinSubCategoryObject", FJsonLeaf.String (GetT3DPath Pin.PinType.PinSubCategoryObject)),
       ("ContainerType", FJsonLeaf.String (GetContainerTypeString Pin.PinType.ContainerType)),
       ("bIsReference", FJsonLeaf.Boolean Pin.PinType.bIsReference),
       ("bIsConst", FJsonLeaf.Boolean Pin.PinType.bIsConst),
       ("bHidden", FJsonLeaf.Boolean (DumpNodeToJSON.bHidden Pin)),
       ("DefaultValue", FJsonLeaf.String Pin.DefaultValue)] := by
  simp [DumpNodeToJSON.PinObj, FPinObject.SetStringField, FPinObject.SetBoolField, SetField]

theorem SelfPin_eq (MemberPath : String) :
    SelfPin MemberPath =
      [("PinName", FJsonLeaf.String "self"),
       ("PinCategory", FJsonLeaf.String "object"),
       ("PinSubCategory", FJsonLeaf.String "self"),
       ("PinSubCategoryObject", FJsonLeaf.String MemberPath),
       ("bIsHidden", FJsonLeaf.Boolean false)] := by
  simp [SelfPin, FPinObject.SetStringField, FPinObject.SetBoolField, SetField]

theorem OutPin_eq (VarName : String) (PinType : FEdGraphPinType) :
    OutPin VarName PinType =
      [("PinName", FJsonLeaf.String VarName),
       ("PinCategory", FJsonLeaf.String PinType.PinCategory),
       ("PinSubCategory", FJsonLeaf.String PinType.PinSubCategory),
       ("PinSubCategoryObject", FJsonLeaf.String (GetT3DPath PinType.PinSubCategoryObject)),
       ("ContainerType", FJsonLeaf.String (GetContainerTypeString PinType.ContainerType)),
       ("bIsReference", FJsonLeaf.Boolean PinType.bIsReference),
       ("bIsConst", FJsonLeaf.Boolean true)] := by
  simp [OutPin, FPinObject.SetStringField, FPinObject.SetBoolField, SetField]

theorem ExecIn_eq :
    ExecIn = [("PinName", FJsonLeaf.String "execute"), ("PinCategory", FJsonLeaf.String "exec")] := by
  simp [ExecIn, FPinObject.SetStringField, SetField]

theorem ExecOut_eq :
    ExecOut = [("PinName", FJsonLeaf.String "then"), ("PinCategory", FJsonLeaf.String "exec")] := by
  simp [ExecOut, FPinObject.SetStringField, SetField]

theorem ValIn_eq (VarName : String) (PinType : FEdGraphPinType) :
    ValIn VarName PinType =
      [("PinName", FJsonLeaf.String VarName),
       ("PinCategory", FJsonLeaf.String PinType.PinCategory),
       ("PinSubCategory", FJsonLeaf.String PinType.PinSubCategory),
       ("PinSubCategoryObject", FJsonLeaf.String (GetT3DPath PinType.PinSubCategoryObject)),
       ("ContainerType", FJsonLeaf.String (GetContainerTypeString PinType.ContainerType))] := by
  simp [ValIn, FPinObject.SetStringField, SetField]

theorem ValOut_eq (VarName : String) (PinType : FEdGraphPinType) :
    ValOut VarName PinType =
      [("PinName", FJsonLeaf.String ("Output_" ++ VarName)),
       ("PinCategory", FJsonLeaf.String PinType.PinCategory),
       ("PinSubCategory", FJsonLeaf.String PinType.PinSubCategory),
       ("PinSubCategoryObject", FJsonLeaf.String (GetT3DPath PinType.PinSubCategoryObject)),
       ("ContainerType", FJsonLeaf.String (GetContainerTypeString PinType.ContainerType))] := by
  simp [ValOut, FPinObject.SetStringField, SetField]

theorem GetNode_eq (Property : FProperty) (MemberPath : String) (PinType : FEdGraphPinType) :
    GetNode Property MemberPath PinType =
      [("Name", FJsonValue.String ("Get " ++ Property.Name)),
       ("NodeType", FJsonValue.String "K2Node_VariableGet"),
       ("FunctionName", FJsonValue.String Property.Name),
       ("MemberParent", FJsonValue.String MemberPath),
       ("Keywords", FJsonValue.String Property.Keywords),
       ("ToolTip", FJsonValue.String ("Get " ++ Property.Name)),
       ("Inputs", FJsonValue.Array [SelfPin MemberPath]),
       ("Outputs", FJsonValue.Array [OutPin Property.Name PinType])] := by
  simp [GetNode, FJsonObject.SetStringField, FJsonObject.SetArrayField, SetField]

theorem SetNode_eq (Property : FProperty) (MemberPath : String) (PinType : FEdGraphPinType) :
    SetNode Property MemberPath PinType =
      [("Name", FJsonValue.String ("Set " ++ Property.Name)),
       ("NodeType", FJsonValue.String "K2Node_VariableSet"),
       ("FunctionName", FJsonValue.String Property.Name),
       ("MemberParent", FJsonValue.String MemberPath),
       ("Keywords", FJsonValue.String Property.Keywords),
       ("ToolTip", FJsonValue.String ("Set " ++ Property.Name)),
       ("Inputs", FJsonValue.Array [ExecIn, SelfPin MemberPath, ValIn Property.Name PinType]),
       ("Outputs", FJsonValue.Array [ExecOut, ValOut Property.Name PinType])] := by
  simp [SetNode, FJsonObject.SetStringField, FJsonObject.SetArrayField, SetField]

/-! ## The arrays only grow -/

namespace FOutputArrays

theorem append_empty (a : FOutputArrays) : a.append empty = a := by
  cases a; simp [append, empty]

theorem empty_append (a : FOutputArrays) : empty.append a = a := by
  cases a; simp [append, empty]

theorem append_assoc (a b c : FOutputArrays) : (a.append b).append c = a.append (b.append c) := by
  simp [append, List.append_assoc]

end FOutputArrays

/-- A left fold of a step that only appends is the concatenation of what each step adds. -/
theorem foldl_append_hom {α : Type} (step : FOutputArrays → α → FOutputArrays)
    (hstep : ∀ a x, step a x = a.append (step FOutputArrays.empty x)) (l : List α)
    (a : FOutputArrays) : l.foldl step a = a.append (l.foldl step FOutputArrays.empty) := by
  induction l generalizing a with
  | nil => simp [FOutputArrays.append_empty]
  | cons x l ih =>
    simp only [List.foldl_cons]
    rw [ih (step a x), ih (step FOutputArrays.empty x), hstep a x, FOutputArrays.append_assoc]

theorem foldl_cons_empty {α : Type} (step : FOutputArrays → α → FOutputArrays)
    (hstep : ∀ a x, step a x = a.append (step FOutputArrays.empty x)) (x : α) (l : List α) :
    (x :: l).foldl step FOutputArrays.empty =
      (step FOutputArrays.empty x).append (l.foldl step FOutputArrays.empty) := by
  simp only [List.foldl_cons]
  rw [foldl_append_hom step hstep l]

theorem foldl_split_empty {α : Type} (step : FOutputArrays → α → FOutputArrays)
    (hstep : ∀ a x, step a x = a.append (step FOutputArrays.empty x)) (x : α) (l₁ l₂ : List α) :
    (l₁ ++ x :: l₂).foldl step FOutputArrays.empty =
      (l₁.foldl step FOutputArrays.empty).append
        ((step FOutputArrays.empty x).append (l₂.foldl step FOutputArrays.empty)) := by
  rw [List.foldl_append, foldl_append_hom step hstep (x :: l₂), foldl_cons_empty step hstep]

theorem DumpNodeToJSON_append (a : FOutputArrays) (Node : UK2Node) (t m f : String) :
    DumpNodeToJSON a Node t m f = a.append (DumpNodeToJSON FOutputArrays.empty Node t m f) := by
  unfold DumpNodeToJSON FOutputArrays.append FOutputArrays.empty
  by_cases h1 : DumpNodeToJSON.bIsDebug (DumpNodeToJSON.CleanName Node f) = true <;>
    by_cases h2 : DumpNodeToJSON.bIsEssential t m f = true <;> simp [h1, h2]

theorem FunctionLoopBody_append (E : Engine) (C : UClass) (a : FOutputArrays) (Func : UFunction) :
    FunctionLoopBody E C a Func = a.append (FunctionLoopBody E C FOutputArrays.empty Func) := by
  unfold FunctionLoopBody
  split_ifs
  · exact (FOutputArrays.append_empty a).symm
  · exact DumpNodeToJSON_append a _ _ _ _
  · exact DumpNodeToJSON_append a _ _ _ _
  · exact (FOutputArrays.append_empty a).symm

theorem PropertyLoopBody_append (E : Engine) (C : UClass) (a : FOutputArrays)
    (Property : FProperty) :
    PropertyLoopBody E C a Property =
      a.append (PropertyLoopBody E C FOutputArrays.empty Property) := by
  unfold PropertyLoopBody
  split_ifs <;> simp [FOutputArrays.append, FOutputArrays.empty]

theorem ClassLoopBody_empty (E : Engine) (C : UClass) :
    ClassLoopBody E FOutputArrays.empty C =
      if IsSkippedClass C then FOutputArrays.empty
      else (C.Functions.foldl (FunctionLoopBody E C) FOutputArrays.empty).append
        (C.Properties.foldl (PropertyLoopBody E C) FOutputArrays.empty) := by
  unfold ClassLoopBody
  split_ifs
  · rfl
  · exact foldl_append_hom _ (PropertyLoopBody_append E C) _ _

theorem ClassLoopBody_append (E : Engine) (a : FOutputArrays) (C : UClass) :
    ClassLoopBody E a C = a.append (ClassLoopBody E FOutputArrays.empty C) := by
  unfold ClassLoopBody
  split_ifs
  · exact (FOutputArrays.append_empty a).symm
  · simp only []
    rw [foldl_append_hom _ (FunctionLoopBody_append E C) _ a,
      foldl_append_hom _ (PropertyLoopBody_append E C) _ (a.append _),
      foldl_append_hom _ (PropertyLoopBody_append E C) _
        (C.Functions.foldl (FunctionLoopBody E C) FOutputArrays.empty),
      FOutputArrays.append_assoc]

theorem DumpAllNodes_eq (E : Engine) :
    DumpAllNodes E =
      (E.Classes.foldl (ClassLoopBody E) FOutputArrays.empty).append
        ((DumpNodeToJSON FOutputArrays.empty E.NewIfThenElseNode "K2Node_IfThenElse" "None"
            "Branch").append
          (DumpNodeToJSON FOutputArrays.empty E.NewExecutionSequenceNode
            "K2Node_ExecutionSequence" "None" "Sequence")) := by
  unfold DumpAllNodes
  simp only []
  rw [DumpNodeToJSON_append, DumpNodeToJSON_append _ E.NewIfThenElseNode,
    FOutputArrays.append_assoc]
  rfl

theorem PropertyLoopBody_empty (E : Engine) (C : UClass) (Property : FProperty) :
    PropertyLoopBody E C FOutputArrays.empty Property =
      if !Property.HasAnyPropertyFlags CPF_BlueprintVisible then FOutputArrays.empty
      else if Property.HasAnyPropertyFlags CPF_Deprecated then FOutputArrays.empty
      else if !Property.HasAnyPropertyFlags CPF_BlueprintReadOnly then
        ⟨[GetNode Property (GetT3DPath (some C.toUObject)) (E.ConvertPropertyToPinType Property),
          SetNode Property (GetT3DPath (some C.toUObject)) (E.ConvertPropertyToPinType Property)],
          [], []⟩
      else
        ⟨[GetNode Property (GetT3DPath (some C.toUObject)) (E.ConvertPropertyToPinType Property)],
          [], []⟩ := by
  unfold PropertyLoopBody
  split_ifs <;> simp [FOutputArrays.empty]

/-- Induction over a run: a property of the arrays that holds of no output, is kept by
concatenation, and holds of what each single emission adds, holds of the result. -/
theorem DumpAllNodes_induct (E : Engine) (P : FOutputArrays → Prop)
    (hempty : P FOutputArrays.empty)
    (happend : ∀ a b, P a → P b → P (a.append b))
    (hnode : ∀ (Node : UK2Node) (t m f : String),
      (t = "K2Node_CallFunction" ∨ t = "K2Node_Event" ∨ t = "K2Node_IfThenElse" ∨
        t = "K2Node_ExecutionSequence") →
      P (DumpNodeToJSON FOutputArrays.empty Node t m f))
    (hget : ∀ (Property : FProperty) (m : String) (pt : FEdGraphPinType),
      P ⟨[GetNode Property m pt], [], []⟩)
    (hset : ∀ (Property : FProperty) (m : String) (pt : FEdGraphPinType),
      P ⟨[SetNode Property m pt], [], []⟩) :
    P (DumpAllNodes E) := by
  have hfold : ∀ {α : Type} (step : FOutputArrays → α → FOutputArrays),
      (∀ a x, step a x = a.append (step FOutputArrays.empty x)) →
      ∀ l : List α, (∀ x ∈ l, P (step FOutputArrays.empty x)) →
        P (l.foldl step FOutputArrays.empty) := by
    intro α step hstep l
    induction l with
    | nil => intro _; exact hempty
    | cons x l ih =>
      intro h
      rw [foldl_cons_empty step hstep]
      exact happend _ _ (h x (List.mem_cons_self _ _))
        (ih (fun y hy => h y (List.mem_cons_of_mem _ hy)))
  have hfun : ∀ C Func, P (FunctionLoopBody E C FOutputArrays.empty Func) := by
    intro C Func
    unfold FunctionLoopBody
    split_ifs
    · exact hempty
    · exact hnode _ _ _ _ (Or.inl rfl)
    · exact hnode _ _ _ _ (Or.inr (Or.inl rfl))
    · exact hempty
  have hprop : ∀ C Property, P (PropertyLoopBody E C FOutputArrays.empty Property) := by
    intro C Property
    rw [PropertyLoopBody_empty]
    split_ifs
    · exact hempty
    · exact hempty
    · exact happend _ _ (hget Property _ _) (hset Property _ _)
    · exact hget Property _ _
  have hclass : ∀ C, P (ClassLoopBody E FOutputArrays.empty C) := by
    intro C
    rw [ClassLoopBody_empty]
    split_ifs
    · exact hempty
    · exact happend _ _ (hfold _ (FunctionLoopBody_append E C) _ (fun x _ => hfun C x))
        (hfold _ (PropertyLoopBody_append E C) _ (fun x _ => hprop C x))
  rw [DumpAllNodes_eq]
  exact happend _ _ (hfold _ (ClassLoopBody_append E) _ (fun x _ => hclass x))
    (happend _ _ (hnode _ _ _ _ (Or.inr (Or.inr (Or.inl rfl))))
      (hnode _ _ _ _ (Or.inr (Or.inr (Or.inr rfl)))))


/-! ## Fields of the emitted descriptors -/

theorem Val_Name (Node : UK2Node) (t m f : String) :
    GetField (DumpNodeToJSON.Val Node t m f) "Name" =
      some (FJsonValue.String (DumpNodeToJSON.Name Node f)) := by
  simp [Val_eq, GetField]

theorem Val_NodeType (Node : UK2Node) (t m f : String) :
    GetField (DumpNodeToJSON.Val Node t m f) "NodeType" =
      some (FJsonValue.String (if FString.IsEmpty t then Node.ClassName else t)) := by
  simp [Val_eq, GetField]

theorem Val_FunctionName (Node : UK2Node) (t m f : String) :
    GetField (DumpNodeToJSON.Val Node t m f) "FunctionName" = some (FJsonValue.String f) := by
  simp [Val_eq, GetField]

theorem Val_MemberParent (Node : UK2Node) (t m f : String) :
    GetField (DumpNodeToJSON.Val Node t m f) "MemberParent" = some (FJsonValue.String m) := by
  simp [Val_eq, GetField]

theorem Val_Inputs (Node : UK2Node) (t m f : String) :
    (DumpNodeToJSON.Val Node t m f).pins "Inputs" = (DumpNodeToJSON.Pins Node).1 := by
  simp [Val_eq, GetField, FJsonObject.pins]

theorem Val_Outputs (Node : UK2Node) (t m f : String) :
    (DumpNodeToJSON.Val Node t m f).pins "Outputs" = (DumpNodeToJSON.Pins Node).2 := by
  simp [Val_eq, GetField, FJsonObject.pins]

/-- The four node-type overrides `DumpAllNodes` passes to `DumpNodeToJSON`. -/
theorem override_cases {t : String}
    (ht : t = "K2Node_CallFunction" ∨ t = "K2Node_Event" ∨ t = "K2Node_IfThenElse" ∨
      t = "K2Node_ExecutionSequence") :
    FString.IsEmpty t = false ∧ t ≠ "K2Node_VariableGet" ∧ t ≠ "K2Node_VariableSet" := by
  rcases ht with h | h | h | h <;> subst h <;> decide

theorem Val_not_accessor (Node : UK2Node) {t : String} (m f : String)
    (ht : t = "K2Node_CallFunction" ∨ t = "K2Node_Event" ∨ t = "K2Node_IfThenElse" ∨
      t = "K2Node_ExecutionSequence") :
    ¬ IsAccessor (DumpNodeToJSON.Val Node t m f) := by
  obtain ⟨h1, h2, h3⟩ := override_cases ht
  simp [IsAccessor, Val_NodeType, h1, h2, h3]

theorem GetNode_accessor (Property : FProperty) (m : String) (pt : FEdGraphPinType) :
    IsAccessor (GetNode Property m pt) := by
  left; simp [GetNode_eq, GetField]

theorem SetNode_accessor (Property : FProperty) (m : String) (pt : FEdGraphPinType) :
    IsAccessor (SetNode Property m pt) := by
  right; simp [GetNode_eq, SetNode_eq, GetField]

theorem DumpNodeToJSON_empty (Node : UK2Node) (t m f : String) :
    DumpNodeToJSON FOutputArrays.empty Node t m f =
      ⟨[DumpNodeToJSON.Val Node t m f],
        if DumpNodeToJSON.bIsEssential t m f then [DumpNodeToJSON.Val Node t m f] else [],
        if DumpNodeToJSON.bIsDebug (DumpNodeToJSON.CleanName Node f) then
          [DumpNodeToJSON.Val Node t m f] else []⟩ := by
  simp [DumpNodeToJSON, FOutputArrays.empty]

theorem DumpNodeToJSON_empty_Full (Node : UK2Node) (t m f : String) :
    (DumpNodeToJSON FOutputArrays.empty Node t m f).FullArray =
      [DumpNodeToJSON.Val Node t m f] := by
  rw [DumpNodeToJSON_empty]

theorem DumpNodeToJSON_empty_Essentials (Node : UK2Node) (t m f : String) :
    (DumpNodeToJSON FOutputArrays.empty Node t m f).EssentialsArray =
      if DumpNodeToJSON.bIsEssential t m f then [DumpNodeToJSON.Val Node t m f] else [] := by
  rw [DumpNodeToJSON_empty]

theorem DumpNodeToJSON_empty_Debug (Node : UK2Node) (t m f : String) :
    (DumpNodeToJSON FOutputArrays.empty Node t m f).DebugArray =
      if DumpNodeToJSON.bIsDebug (DumpNodeToJSON.CleanName Node f) then
        [DumpNodeToJSON.Val Node t m f] else [] := by
  rw [DumpNodeToJSON_empty]

theorem bIsEssential_iff (t m f : String) :
    DumpNodeToJSON.bIsEssential t m f = true ↔ EssentialsRuleOn t m f := by
  unfold DumpNodeToJSON.bIsEssential EssentialsRuleOn FString.Equals
  simp only [Bool.or_eq_true, decide_eq_true_eq]
  split_ifs <;> simp only [Bool.false_eq_true, true_iff, false_iff] <;> tauto

theorem bIsDebug_iff (Node : UK2Node) (t m f : String) :
    DumpNodeToJSON.bIsDebug (DumpNodeToJSON.CleanName Node f) = true ↔
      DebugRule (DumpNodeToJSON.Val Node t m f) := by
  simp [DebugRule, Val_Name, DumpNodeToJSON.bIsDebug, DumpNodeToJSON.CleanName]

/-! ## Classification along a run -/

/-- Everything in `Essentials` and in `Debug` is in `Full`. -/
theorem buckets_subset_full (E : Engine) :
    (∀ d ∈ (DumpAllNodes E).EssentialsArray, d ∈ (DumpAllNodes E).FullArray) ∧
      (∀ d ∈ (DumpAllNodes E).DebugArray, d ∈ (DumpAllNodes E).FullArray) := by
  refine DumpAllNodes_induct E
    (fun a => (∀ d ∈ a.EssentialsArray, d ∈ a.FullArray) ∧
      (∀ d ∈ a.DebugArray, d ∈ a.FullArray)) ?_ ?_ ?_ ?_ ?_
  · simp [FOutputArrays.empty]
  · rintro a b ⟨ha1, ha2⟩ ⟨hb1, hb2⟩
    simp only [FOutputArrays.append, List.mem_append]
    exact ⟨fun d hd => hd.imp (ha1 d) (hb1 d), fun d hd => hd.imp (ha2 d) (hb2 d)⟩
  · intro Node t m f _
    simp only [DumpNodeToJSON_empty_Full, DumpNodeToJSON_empty_Essentials,
      DumpNodeToJSON_empty_Debug]
    constructor <;> intro d hd <;> split_ifs at hd <;> simp_all
  · intro _ _ _; simp
  · intro _ _ _; simp

/-- The debug bucket holds exactly the non-accessor descriptors that meet the debug rule. -/
theorem debug_classification (E : Engine) :
    (∀ d ∈ (DumpAllNodes E).DebugArray, ¬ IsAccessor d ∧ DebugRule d) ∧
      (∀ d ∈ (DumpAllNodes E).FullArray, ¬ IsAccessor d → DebugRule d →
        d ∈ (DumpAllNodes E).DebugArray) := by
  refine DumpAllNodes_induct E
    (fun a => (∀ d ∈ a.DebugArray, ¬ IsAccessor d ∧ DebugRule d) ∧
      (∀ d ∈ a.FullArray, ¬ IsAccessor d → DebugRule d → d ∈ a.DebugArray)) ?_ ?_ ?_ ?_ ?_
  · simp [FOutputArrays.empty]
  · rintro a b ⟨ha1, ha2⟩ ⟨hb1, hb2⟩
    simp only [FOutputArrays.append, List.mem_append]
    refine ⟨fun d hd => hd.elim (ha1 d) (hb1 d), fun d hd h1 h2 => ?_⟩
    exact hd.imp (fun h => ha2 d h h1 h2) (fun h => hb2 d h h1 h2)
  · intro Node t m f ht
    simp only [DumpNodeToJSON_empty_Full, DumpNodeToJSON_empty_Debug]
    have hacc := Val_not_accessor Node m f ht
    have hrule := bIsDebug_iff Node t m f
    constructor
    · intro d hd
      split_ifs at hd with h
      · simp only [List.mem_singleton] at hd
        subst hd
        exact ⟨hacc, hrule.mp h⟩
      · simp at hd
    · intro d hd _ h2
      simp only [List.mem_singleton] at hd
      subst hd
      simp [hrule.mpr h2]
  · intro P m pt
    exact ⟨by simp, fun d hd h => by
      simp only [List.mem_singleton] at hd; subst hd; exact absurd (GetNode_accessor P m pt) h⟩
  · intro P m pt
    exact ⟨by simp, fun d hd h => by
      simp only [List.mem_singleton] at hd; subst hd; exact absurd (SetNode_accessor P m pt) h⟩

theorem Val_EssentialsRule (Node : UK2Node) {t : String} (m f : String)
    (ht : FString.IsEmpty t = false) :
    EssentialsRule (DumpNodeToJSON.Val Node t m f) ↔ EssentialsRuleOn t m f := by
  simp [EssentialsRule, Val_NodeType, Val_MemberParent, Val_FunctionName, ht]

/-- The essentials bucket holds exactly the non-accessor descriptors that meet one of the
essentials rules. -/
theorem essentials_classification (E : Engine) :
    (∀ d ∈ (DumpAllNodes E).EssentialsArray, ¬ IsAccessor d ∧ EssentialsRule d) ∧
      (∀ d ∈ (DumpAllNodes E).FullArray, ¬ IsAccessor d → EssentialsRule d →
        d ∈ (DumpAllNodes E).EssentialsArray) := by
  refine DumpAllNodes_induct E
    (fun a => (∀ d ∈ a.EssentialsArray, ¬ IsAccessor d ∧ EssentialsRule d) ∧
      (∀ d ∈ a.FullArray, ¬ IsAccessor d → EssentialsRule d → d ∈ a.EssentialsArray))
    ?_ ?_ ?_ ?_ ?_
  · simp [FOutputArrays.empty]
  · rintro a b ⟨ha1, ha2⟩ ⟨hb1, hb2⟩
    simp only [FOutputArrays.append, List.mem_append]
    refine ⟨fun d hd => hd.elim (ha1 d) (hb1 d), fun d hd h1 h2 => ?_⟩
    exact hd.imp (fun h => ha2 d h h1 h2) (fun h => hb2 d h h1 h2)
  · intro Node t m f ht
    simp only [DumpNodeToJSON_empty_Full, DumpNodeToJSON_empty_Essentials]
    have hacc := Val_not_accessor Node m f ht
    have hrule := (Val_EssentialsRule Node m f (override_cases ht).1).trans
      (bIsEssential_iff t m f).symm
    constructor
    · intro d hd
      split_ifs at hd with h
      · simp only [List.mem_singleton] at hd
        subst hd
        exact ⟨hacc, hrule.mpr h⟩
      · simp at hd
    · intro d hd _ h2
      simp only [List.mem_singleton] at hd
      subst hd
      simp [hrule.mp h2]
  · intro P m pt
    exact ⟨by simp, fun d hd h => by
      simp only [List.mem_singleton] at hd; subst hd; exact absurd (GetNode_accessor P m pt) h⟩
  · intro P m pt
    exact ⟨by simp, fun d hd h => by
      simp only [List.mem_singleton] at hd; subst hd; exact absurd (SetNode_accessor P m pt) h⟩

/-! ## Where a step's output sits in the result -/

namespace FOutputArrays

theorem Within.refl (a : FOutputArrays) : a.Within a :=
  ⟨empty, empty, by rw [append_empty, empty_append]⟩

theorem Within.trans {a b c : FOutputArrays} (hab : a.Within b) (hbc : b.Within c) :
    a.Within c := by
  obtain ⟨p1, q1, rfl⟩ := hab
  obtain ⟨p2, q2, rfl⟩ := hbc
  exact ⟨p2.append p1, q1.append q2, by simp only [append_assoc]⟩

theorem Within.append_left {a b : FOutputArrays} (c : FOutputArrays) (h : a.Within b) :
    a.Within (c.append b) := by
  obtain ⟨p, q, rfl⟩ := h
  exact ⟨c.append p, q, by simp only [append_assoc]⟩

theorem Within.append_right {a b : FOutputArrays} (c : FOutputArrays) (h : a.Within b) :
    a.Within (b.append c) := by
  obtain ⟨p, q, rfl⟩ := h
  exact ⟨p, q.append c, by simp only [append_assoc]⟩

theorem Within.full {a b : FOutputArrays} (h : a.Within b) :
    ∃ pre post, b.FullArray = pre ++ a.FullArray ++ post := by
  obtain ⟨p, q, rfl⟩ := h
  exact ⟨p.FullArray, q.FullArray, by simp [append]⟩

theorem Within.full_mem {a b : FOutputArrays} (h : a.Within b) {d : FJsonObject}
    (hd : d ∈ a.FullArray) : d ∈ b.FullArray := by
  obtain ⟨p, q, rfl⟩ := h
  simp [append, hd]

end FOutputArrays

theorem foldl_within {α : Type} (step : FOutputArrays → α → FOutputArrays)
    (hstep : ∀ a x, step a x = a.append (step FOutputArrays.empty x)) {l : List α} {x : α}
    (hx : x ∈ l) :
    (step FOutputArrays.empty x).Within (l.foldl step FOutputArrays.empty) := by
  obtain ⟨l₁, l₂, rfl⟩ := List.append_of_mem hx
  exact ⟨_, _, foldl_split_empty step hstep x l₁ l₂⟩

theorem ClassLoopBody_within (E : Engine) {C : UClass} (hC : C ∈ E.Classes) :
    (ClassLoopBody E FOutputArrays.empty C).Within (DumpAllNodes E) := by
  rw [DumpAllNodes_eq]
  exact (foldl_within _ (ClassLoopBody_append E) hC).append_right _

theorem FunctionLoopBody_within (E : Engine) {C : UClass} (hC : C ∈ E.Classes)
    (hskip : IsSkippedClass C = false) {Func : UFunction} (hF : Func ∈ C.Functions) :
    (FunctionLoopBody E C FOutputArrays.empty Func).Within (DumpAllNodes E) := by
  refine FOutputArrays.Within.trans ?_ (ClassLoopBody_within E hC)
  rw [ClassLoopBody_empty, hskip]
  exact (foldl_within _ (FunctionLoopBody_append E C) hF).append_right _

theorem PropertyLoopBody_within (E : Engine) {C : UClass} (hC : C ∈ E.Classes)
    (hskip : IsSkippedClass C = false) {Property : FProperty} (hP : Property ∈ C.Properties) :
    (PropertyLoopBody E C FOutputArrays.empty Property).Within (DumpAllNodes E) := by
  refine FOutputArrays.Within.trans ?_ (ClassLoopBody_within E hC)
  rw [ClassLoopBody_empty, hskip]
  exact (foldl_within _ (PropertyLoopBody_append E C) hP).append_left _

/-! ## Counting the accessors of one property -/

theorem filter_foldl_nil {α : Type} (step : FOutputArrays → α → FOutputArrays)
    (hstep : ∀ a x, step a x = a.append (step FOutputArrays.empty x))
    (q : FJsonObject → Bool) (l : List α)
    (h : ∀ x ∈ l, (step FOutputArrays.empty x).FullArray.filter q = []) :
    (l.foldl step FOutputArrays.empty).FullArray.filter q = [] := by
  induction l with
  | nil => simp [FOutputArrays.empty]
  | cons x l ih =>
    rw [foldl_cons_empty step hstep]
    simp only [FOutputArrays.append, List.filter_append]
    rw [h x (List.mem_cons_self _ _), ih (fun y hy => h y (List.mem_cons_of_mem _ hy))]
    rfl

theorem filter_foldl_unique {α : Type} (key : α → String)
    (step : FOutputArrays → α → FOutputArrays)
    (hstep : ∀ a x, step a x = a.append (step FOutputArrays.empty x))
    (q : FJsonObject → Bool) (l : List α) (hnd : (l.map key).Nodup) (x : α) (hx : x ∈ l)
    (hothers : ∀ y ∈ l, key y ≠ key x → (step FOutputArrays.empty y).FullArray.filter q = []) :
    (l.foldl step FOutputArrays.empty).FullArray.filter q =
      (step FOutputArrays.empty x).FullArray.filter q := by
  induction l with
  | nil => simp at hx
  | cons y l ih =>
    rw [foldl_cons_empty step hstep]
    simp only [FOutputArrays.append, List.filter_append]
    simp only [List.map_cons, List.nodup_cons, List.mem_map, not_exists, not_and] at hnd
    by_cases hxy : key y = key x
    · have hxl : x ∉ l := fun hm => hnd.1 x hm hxy.symm
      have hyx : x = y := by
        rcases List.mem_cons.mp hx with h | h
        · exact h
        · exact absurd h hxl
      subst hyx
      rw [filter_foldl_nil step hstep q l (fun z hz =>
        hothers z (List.mem_cons_of_mem _ hz) (fun hk => hnd.1 z hz hk))]
      simp
    · have hxl : x ∈ l := by
        rcases List.mem_cons.mp hx with h | h
        · exact absurd (by rw [h]) hxy
        · exact h
      rw [hothers y (List.mem_cons_self _ _) hxy,
        ih hnd.2 hxl (fun z hz => hothers z (List.mem_cons_of_mem _ hz))]
      rfl

theorem GetT3DPath_class_inj {C C' : UClass}
    (h : GetT3DPath (some C'.toUObject) = GetT3DPath (some C.toUObject)) :
    C'.PathName = C.PathName := by
  have h2 := congrArg String.data h
  simp only [GetT3DPath, UClass.toUObject] at h2
  simp at h2
  exact String.ext h2

theorem IsAccessorFor_Val (nt : String) (C : UClass) (P : FProperty) (Node : UK2Node)
    {t : String} (m f : String)
    (ht : t = "K2Node_CallFunction" ∨ t = "K2Node_Event" ∨ t = "K2Node_IfThenElse" ∨
      t = "K2Node_ExecutionSequence")
    (hnt : nt = "K2Node_VariableGet" ∨ nt = "K2Node_VariableSet") :
    IsAccessorFor nt C P (DumpNodeToJSON.Val Node t m f) = false := by
  obtain ⟨h1, h2, h3⟩ := override_cases ht
  rcases hnt with h | h <;> subst h <;> simp [IsAccessorFor, Val_NodeType, h1, h2, h3]

theorem IsAccessorFor_GetNode (nt : String) (C : UClass) (P P' : FProperty) (m : String)
    (pt : FEdGraphPinType) :
    IsAccessorFor nt C P (GetNode P' m pt) = true ↔
      nt = "K2Node_VariableGet" ∧ P'.Name = P.Name ∧ m = GetT3DPath (some C.toUObject) := by
  simp only [IsAccessorFor, GetNode_eq, GetField]
  simp [and_assoc]
  intro _ _
  exact eq_comm

theorem IsAccessorFor_SetNode (nt : String) (C : UClass) (P P' : FProperty) (m : String)
    (pt : FEdGraphPinType) :
    IsAccessorFor nt C P (SetNode P' m pt) = true ↔
      nt = "K2Node_VariableSet" ∧ P'.Name = P.Name ∧ m = GetT3DPath (some C.toUObject) := by
  simp only [IsAccessorFor, SetNode_eq, GetField]
  simp [and_assoc]
  intro _ _
  exact eq_comm

theorem filter_DumpNodeToJSON (nt : String) (C : UClass) (P : FProperty) (Node : UK2Node)
    {t : String} (m f : String)
    (ht : t = "K2Node_CallFunction" ∨ t = "K2Node_Event" ∨ t = "K2Node_IfThenElse" ∨
      t = "K2Node_ExecutionSequence")
    (hnt : nt = "K2Node_VariableGet" ∨ nt = "K2Node_VariableSet") :
    (DumpNodeToJSON FOutputArrays.empty Node t m f).FullArray.filter (IsAccessorFor nt C P) =
      [] := by
  rw [DumpNodeToJSON_empty_Full]
  simp [IsAccessorFor_Val nt C P Node m f ht hnt]

theorem filter_FunctionLoopBody (E : Engine) (nt : String) (C C' : UClass) (P : FProperty)
    (Func : UFunction) (hnt : nt = "K2Node_VariableGet" ∨ nt = "K2Node_VariableSet") :
    (FunctionLoopBody E C' FOutputArrays.empty Func).FullArray.filter (IsAccessorFor nt C P) =
      [] := by
  unfold FunctionLoopBody
  split_ifs
  · rfl
  · exact filter_DumpNodeToJSON nt C P _ _ _ (Or.inl rfl) hnt
  · exact filter_DumpNodeToJSON nt C P _ _ _ (Or.inr (Or.inl rfl)) hnt
  · rfl

theorem filter_PropertyLoopBody_other (E : Engine) (nt : String) (C C' : UClass)
    (P P' : FProperty)
    (h : P'.Name ≠ P.Name ∨ C'.PathName ≠ C.PathName) :
    (PropertyLoopBody E C' FOutputArrays.empty P').FullArray.filter (IsAccessorFor nt C P) =
      [] := by
  have hg : ∀ pt, IsAccessorFor nt C P (GetNode P' (GetT3DPath (some C'.toUObject)) pt) =
      false := by
    intro pt
    rw [← Bool.not_eq_true, IsAccessorFor_GetNode]
    rintro ⟨_, h1, h2⟩
    exact h.elim (fun hn => hn h1) (fun hp => hp (GetT3DPath_class_inj h2))
  have hs : ∀ pt, IsAccessorFor nt C P (SetNode P' (GetT3DPath (some C'.toUObject)) pt) =
      false := by
    intro pt
    rw [← Bool.not_eq_true, IsAccessorFor_SetNode]
    rintro ⟨_, h1, h2⟩
    exact h.elim (fun hn => hn h1) (fun hp => hp (GetT3DPath_class_inj h2))
  rw [PropertyLoopBody_empty]
  split_ifs <;> simp [FOutputArrays.empty, hg, hs]

theorem filter_ClassLoopBody_other (E : Engine) (nt : String) (C C' : UClass) (P : FProperty)
    (hnt : nt = "K2Node_VariableGet" ∨ nt = "K2Node_VariableSet")
    (h : C'.PathName ≠ C.PathName) :
    (ClassLoopBody E FOutputArrays.empty C').FullArray.filter (IsAccessorFor nt C P) = [] := by
  rw [ClassLoopBody_empty]
  split_ifs
  · rfl
  · simp only [FOutputArrays.append, List.filter_append]
    rw [filter_foldl_nil _ (FunctionLoopBody_append E C') _ _
        (fun F _ => filter_FunctionLoopBody E nt C C' P F hnt),
      filter_foldl_nil _ (PropertyLoopBody_append E C') _ _
        (fun P' _ => filter_PropertyLoopBody_other E nt C C' P P' (Or.inr h))]
    rfl

/-- In a well-formed catalog the accessors of node type `nt` that a run emits for the
property `P` of the class `C` are those the property-loop body emits for `P` itself. -/
theorem filter_DumpAllNodes (E : Engine) (hwf : WellFormed E) (nt : String) (C : UClass)
    (hC : C ∈ E.Classes) (P : FProperty) (hP : P ∈ C.Properties)
    (hnt : nt = "K2Node_VariableGet" ∨ nt = "K2Node_VariableSet") :
    (DumpAllNodes E).FullArray.filter (IsAccessorFor nt C P) =
      if IsSkippedClass C then []
      else (PropertyLoopBody E C FOutputArrays.empty P).FullArray.filter
        (IsAccessorFor nt C P) := by
  rw [DumpAllNodes_eq]
  simp only [FOutputArrays.append, List.filter_append]
  rw [filter_DumpNodeToJSON nt C P _ _ _ (Or.inr (Or.inr (Or.inl rfl))) hnt,
    filter_DumpNodeToJSON nt C P _ _ _ (Or.inr (Or.inr (Or.inr rfl))) hnt,
    filter_foldl_unique UClass.PathName _ (ClassLoopBody_append E) _ _ hwf.1 C hC
      (fun C' _ h => filter_ClassLoopBody_other E nt C C' P hnt h),
    ClassLoopBody_empty]
  split_ifs
  · rfl
  · simp only [FOutputArrays.append, List.filter_append]
    rw [filter_foldl_nil _ (FunctionLoopBody_append E C) _ _
        (fun F _ => filter_FunctionLoopBody E nt C C P F hnt),
      filter_foldl_unique FProperty.Name _ (PropertyLoopBody_append E C) _ _ (hwf.2 C hC) P hP
        (fun P' _ h => filter_PropertyLoopBody_other E nt C C P P' (Or.inl h))]
    simp

/-! ## Pins of an instantiated node -/

theorem Pins_foldl_mem (l : List UEdGraphPin) (acc : List FPinObject × List FPinObject)
    (p : FPinObject) (hp : p ∈ (l.foldl DumpNodeToJSON.PinLoopBody acc).1 ++
      (l.foldl DumpNodeToJSON.PinLoopBody acc).2) :
    p ∈ acc.1 ++ acc.2 ∨ ∃ Pin ∈ l, p = DumpNodeToJSON.PinObj Pin := by
  induction l generalizing acc with
  | nil => exact Or.inl hp
  | cons Pin l ih =>
    rcases ih _ hp with h | ⟨Pin', hmem, heq⟩
    · unfold DumpNodeToJSON.PinLoopBody at h
      split_ifs at h
      · simp only [List.mem_append, List.mem_singleton] at h
        rcases h with (h | h) | h
        · exact Or.inl (List.mem_append_left _ h)
        · exact Or.inr ⟨Pin, List.mem_cons_self _ _, h⟩
        · exact Or.inl (List.mem_append_right _ h)
      · simp only [List.mem_append, List.mem_singleton] at h
        rcases h with h | h | h
        · exact Or.inl (List.mem_append_left _ h)
        · exact Or.inl (List.mem_append_right _ h)
        · exact Or.inr ⟨Pin, List.mem_cons_self _ _, h⟩
    · exact Or.inr ⟨Pin', List.mem_cons_of_mem _ hmem, heq⟩

theorem Pins_mem (Node : UK2Node) (p : FPinObject)
    (hp : p ∈ (DumpNodeToJSON.Pins Node).1 ++ (DumpNodeToJSON.Pins Node).2) :
    ∃ Pin ∈ Node.Pins, p = DumpNodeToJSON.PinObj Pin := by
  rcases Pins_foldl_mem Node.Pins ([], []) p hp with h | h
  · simp at h
  · exact h

theorem Pins_foldl_of_mem (l : List UEdGraphPin) (acc : List FPinObject × List FPinObject)
    (Pin : UEdGraphPin) (hPin : Pin ∈ l) :
    DumpNodeToJSON.PinObj Pin ∈ (l.foldl DumpNodeToJSON.PinLoopBody acc).1 ++
      (l.foldl DumpNodeToJSON.PinLoopBody acc).2 := by
  have hkeep : ∀ (l : List UEdGraphPin) (acc : List FPinObject × List FPinObject)
      (p : FPinObject), p ∈ acc.1 ++ acc.2 →
      p ∈ (l.foldl DumpNodeToJSON.PinLoopBody acc).1 ++
        (l.foldl DumpNodeToJSON.PinLoopBody acc).2 := by
    intro l
    induction l with
    | nil => intro acc p h; exact h
    | cons Pin' l ih =>
      intro acc p h
      refine ih _ p ?_
      unfold DumpNodeToJSON.PinLoopBody
      simp only [List.mem_append] at h
      split_ifs <;> simp only [List.mem_append, List.mem_singleton] <;> tauto
  induction l generalizing acc with
  | nil => simp at hPin
  | cons Pin' l ih =>
    rcases List.mem_cons.mp hPin with h | h
    · subst h
      refine hkeep l _ _ ?_
      unfold DumpNodeToJSON.PinLoopBody
      split_ifs <;> simp
    · exact ih _ h

theorem bHidden_forced (Pin : UEdGraphPin)
    (h : Pin.PinName = "WorldContextObject" ∨ Pin.PinName = "self") :
    DumpNodeToJSON.bHidden Pin = true := by
  unfold DumpNodeToJSON.bHidden
  rcases h with h | h <;> rw [h] <;> cases Pin.bHidden <;> decide

theorem PinObj_PinName (Pin : UEdGraphPin) :
    GetField (DumpNodeToJSON.PinObj Pin) "PinName" = some (FJsonLeaf.String Pin.PinName) := by
  simp [PinObj_eq, GetField]

theorem PinObj_bHidden (Pin : UEdGraphPin) :
    GetField (DumpNodeToJSON.PinObj Pin) "bHidden" =
      some (FJsonLeaf.Boolean (DumpNodeToJSON.bHidden Pin)) := by
  simp [PinObj_eq, GetField]

theorem PinObj_PinSubCategoryObject (Pin : UEdGraphPin) :
    GetField (DumpNodeToJSON.PinObj Pin) "PinSubCategoryObject" =
      some (FJsonLeaf.String (GetT3DPath Pin.PinType.PinSubCategoryObject)) := by
  simp [PinObj_eq, GetField]

/-- Pins of the non-accessor descriptors of a run named `WorldContextObject` or `self`
carry `bHidden = true`. -/
theorem hidden_classification (E : Engine) :
    ∀ d ∈ (DumpAllNodes E).FullArray, ¬ IsAccessor d →
      ∀ p ∈ d.pins "Inputs" ++ d.pins "Outputs",
        (GetField p "PinName" = some (FJsonLeaf.String "WorldContextObject") ∨
          GetField p "PinName" = some (FJsonLeaf.String "self")) →
        GetField p "bHidden" = some (FJsonLeaf.Boolean true) := by
  refine DumpAllNodes_induct E
    (fun a => ∀ d ∈ a.FullArray, ¬ IsAccessor d →
      ∀ p ∈ d.pins "Inputs" ++ d.pins "Outputs",
        (GetField p "PinName" = some (FJsonLeaf.String "WorldContextObject") ∨
          GetField p "PinName" = some (FJsonLeaf.String "self")) →
        GetField p "bHidden" = some (FJsonLeaf.Boolean true)) ?_ ?_ ?_ ?_ ?_
  · simp [FOutputArrays.empty]
  · intro a b ha hb d hd
    simp only [FOutputArrays.append, List.mem_append] at hd
    exact hd.elim (ha d) (hb d)
  · intro Node t m f _ d hd _ p hp hname
    simp only [DumpNodeToJSON_empty_Full, List.mem_singleton] at hd
    subst hd
    rw [Val_Inputs, Val_Outputs] at hp
    obtain ⟨Pin, _, rfl⟩ := Pins_mem Node p hp
    rw [PinObj_PinName] at hname
    rw [PinObj_bHidden, bHidden_forced Pin]
    simpa using hname
  · intro P m pt d hd h
    simp only [List.mem_singleton] at hd; subst hd; exact absurd (GetNode_accessor P m pt) h
  · intro P m pt d hd h
    simp only [List.mem_singleton] at hd; subst hd; exact absurd (SetNode_accessor P m pt) h

/-! ## The renderers meet the specification -/

theorem GetT3DPath_eq_ReferencedTypePath (Obj : Option UObject) :
    GetT3DPath Obj = ReferencedTypePath Obj := by
  rcases Obj with _ | ⟨Path, Kind⟩
  · rfl
  · cases Kind <;> simp [GetT3DPath, ReferencedTypePath]

theorem GetContainerTypeString_eq_ContainerShapeName (ContainerType : EPinContainerType) :
    GetContainerTypeString ContainerType = ContainerShapeName ContainerType := by
  cases ContainerType <;> rfl

/-! ## Letter-for-letter containment implies `FString.Contains` -/

theorem IsDumpCall_within (E : Engine) (Node : UK2Node) (t m f : String)
    (h : IsDumpCall E Node t m f) :
    (DumpNodeToJSON FOutputArrays.empty Node t m f).Within (DumpAllNodes E) := by
  rcases h with ⟨C, hC, hskip, Func, hF, hOuter, hcall, rfl, rfl, rfl, rfl⟩ |
    ⟨C, hC, hskip, Func, hF, hOuter, hcall, hev, hfind, rfl, rfl, rfl, rfl⟩ |
    ⟨rfl, rfl, rfl, rfl⟩ | ⟨rfl, rfl, rfl, rfl⟩
  · have hbody : FunctionLoopBody E C FOutputArrays.empty Func =
        DumpNodeToJSON FOutputArrays.empty (E.NewCallFunctionNode Func) "K2Node_CallFunction"
          (GetT3DPath (some C.toUObject)) Func.Name := by
      unfold FunctionLoopBody
      rw [if_neg (by simp [hOuter]), if_pos hcall]
    rw [← hbody]
    exact FunctionLoopBody_within E hC hskip hF
  · have hbody : FunctionLoopBody E C FOutputArrays.empty Func =
        DumpNodeToJSON FOutputArrays.empty (E.NewEventNode Func C) "K2Node_Event"
          (GetT3DPath (some C.toUObject)) Func.Name := by
      unfold FunctionLoopBody
      rw [if_neg (by simp [hOuter]), if_neg (by simp [hcall]), if_pos (by simp [hev, hfind])]
    rw [← hbody]
    exact FunctionLoopBody_within E hC hskip hF
  · rw [DumpAllNodes_eq]
    exact ⟨_, _, rfl⟩
  · rw [DumpAllNodes_eq]
    exact ((FOutputArrays.Within.refl _).append_left _).append_left _

/-! ## Bucket containment -/

/-- C1: in every run, every descriptor of the Essentials array and every descriptor of the
Debug array is also in the Full array; and one call of `DumpNodeToJSON` puts nothing new
into Essentials or Debug that it does not also put into Full. -/
theorem C1_bucket_containment (E : Engine) :
    ((∀ d ∈ (DumpAllNodes E).EssentialsArray, d ∈ (DumpAllNodes E).FullArray) ∧
      (∀ d ∈ (DumpAllNodes E).DebugArray, d ∈ (DumpAllNodes E).FullArray)) ∧
    (∀ (a : FOutputArrays) (Node : UK2Node) (t m f : String) (d : FJsonObject),
      (d ∈ (DumpNodeToJSON a Node t m f).EssentialsArray →
        d ∈ a.EssentialsArray ∨ d ∈ (DumpNodeToJSON a Node t m f).FullArray) ∧
      (d ∈ (DumpNodeToJSON a Node t m f).DebugArray →
        d ∈ a.DebugArray ∨ d ∈ (DumpNodeToJSON a Node t m f).FullArray)) := by
  refine ⟨buckets_subset_full E, ?_⟩
  intro a Node t m f d
  rw [DumpNodeToJSON_append]
  simp only [FOutputArrays.append, DumpNodeToJSON_empty_Full, DumpNodeToJSON_empty_Essentials,
    DumpNodeToJSON_empty_Debug, List.mem_append]
  constructor <;> intro hd <;> split_ifs at hd <;>
    simp only [List.mem_singleton, List.not_mem_nil, or_false] at hd ⊢ <;> tauto

/-- C1, on the small catalog: the `Branch` descriptor is in Essentials, hence in Full. -/
theorem C1_bucket_containment_witness :
    DumpNodeToJSON.Val demoEngine.NewIfThenElseNode "K2Node_IfThenElse" "None" "Branch" ∈
        (DumpAllNodes demoEngine).EssentialsArray ∧
      DumpNodeToJSON.Val demoEngine.NewIfThenElseNode "K2Node_IfThenElse" "None" "Branch" ∈
        (DumpAllNodes demoEngine).FullArray :=
  ⟨by decide, (C1_bucket_containment demoEngine).1.1 _ (by decide)⟩

/-! ## The debug rule -/

/-- C5, refuted as stated: the run on the small catalog emits the accessor `Get bDrawDebug`
into Full; its name without spaces contains `DrawDebug`; it is not in Debug. -/
theorem C5_counterexample :
    GetNode demoDrawDebug demoScoreKeeperPath demoRealPinType ∈
        (DumpAllNodes demoEngine).FullArray ∧
      GetField (GetNode demoDrawDebug demoScoreKeeperPath demoRealPinType) "Name" =
        some (FJsonValue.String "Get bDrawDebug") ∧
      FString.Replace "Get bDrawDebug" " " "" = "GetbDrawDebug" ∧
      FString.Contains "GetbDrawDebug" "DrawDebug" = true ∧
      GetNode demoDrawDebug demoScoreKeeperPath demoRealPinType ∉
        (DumpAllNodes demoEngine).DebugArray := by
  decide

/-- C5, amended: a descriptor emitted through `DumpNodeToJSON` (a call, an event or a
control-flow node) is in Debug if and only if its display name with the spaces removed
contains `PrintString` or `DrawDebug`; an accessor descriptor (VariableGet, VariableSet) is
never in Debug; and a node dumped under the display name `Print String` is put in Debug. -/
theorem C5_debug_rule (E : Engine) :
    (∀ d ∈ (DumpAllNodes E).FullArray, ¬ IsAccessor d →
      (d ∈ (DumpAllNodes E).DebugArray ↔ DebugRule d)) ∧
    (∀ d ∈ (DumpAllNodes E).FullArray, IsAccessor d → d ∉ (DumpAllNodes E).DebugArray) ∧
    (∀ (a : FOutputArrays) (Node : UK2Node) (t m f : String),
      DumpNodeToJSON.Name Node f = "Print String" →
        DumpNodeToJSON.Val Node t m f ∈ (DumpNodeToJSON a Node t m f).DebugArray) := by
  obtain ⟨h1, h2⟩ := debug_classification E
  refine ⟨fun d hd hacc => ⟨fun h => (h1 d h).2, h2 d hd hacc⟩,
    fun d _ hacc h => (h1 d h).1 hacc, ?_⟩
  intro a Node t m f hname
  have hdebug : DumpNodeToJSON.bIsDebug (DumpNodeToJSON.CleanName Node f) = true := by
    unfold DumpNodeToJSON.CleanName
    rw [hname]
    decide
  rw [DumpNodeToJSON_append]
  simp [FOutputArrays.append, DumpNodeToJSON_empty_Debug, hdebug]

/-- C5, on the small catalog: the call descriptor of `PrintString` is in Debug. -/
theorem C5_debug_rule_witness :
    CallDescriptor demoEngine demoSystemLibrary demoPrintString ∈
      (DumpAllNodes demoEngine).DebugArray :=
  ((C5_debug_rule demoEngine).1 (CallDescriptor demoEngine demoSystemLibrary demoPrintString)
    (by decide) (by unfold IsAccessor; decide)).mpr
    ⟨"PrintString", by decide, Or.inl (by decide)⟩

/-! ## The essentials rules -/

/-- C6, refuted as stated: the run on the small catalog emits the accessor `Get Delay` into
Full; its member name is exactly `Delay`; it is not in Essentials. -/
theorem C6_counterexample :
    GetNode demoDelay demoScoreKeeperPath demoRealPinType ∈
        (DumpAllNodes demoEngine).FullArray ∧
      GetField (GetNode demoDelay demoScoreKeeperPath demoRealPinType) "FunctionName" =
        some (FJsonValue.String "Delay") ∧
      GetNode demoDelay demoScoreKeeperPath demoRealPinType ∉
        (DumpAllNodes demoEngine).EssentialsArray := by
  decide

/-- C6, amended: a descriptor emitted through `DumpNodeToJSON` (a call, an event or a
control-flow node) is in Essentials if and only if (1) its node-type tag contains
`IfThenElse` or `ExecutionSequence`, or (2) its member name is exactly `Delay`,
`RetriggerableDelay` or `IsValid`, or (3) its owner path contains `KismetMathLibrary` and
its member name contains one of Add, Subtract, Multiply, Divide, Equal, Less, Greater,
Boolean, Vector; an accessor descriptor (VariableGet, VariableSet) is never in Essentials;
and the injected if/else node, named `Branch`, is in Essentials. -/
theorem C6_essentials_rule (E : Engine) :
    (∀ d ∈ (DumpAllNodes E).FullArray, ¬ IsAccessor d →
      (d ∈ (DumpAllNodes E).EssentialsArray ↔ EssentialsRule d)) ∧
    (∀ d ∈ (DumpAllNodes E).FullArray, IsAccessor d →
      d ∉ (DumpAllNodes E).EssentialsArray) ∧
    (DumpNodeToJSON.Val E.NewIfThenElseNode "K2Node_IfThenElse" "None" "Branch" ∈
        (DumpAllNodes E).EssentialsArray ∧
      GetField (DumpNodeToJSON.Val E.NewIfThenElseNode "K2Node_IfThenElse" "None" "Branch")
        "Name" = some (FJsonValue.String "Branch")) := by
  obtain ⟨h1, h2⟩ := essentials_classification E
  refine ⟨fun d hd hacc => ⟨fun h => (h1 d h).2, h2 d hd hacc⟩,
    fun d _ hacc h => (h1 d h).1 hacc, ?_, ?_⟩
  · rw [DumpAllNodes_eq]
    have hess : DumpNodeToJSON.bIsEssential "K2Node_IfThenElse" "None" "Branch" = true := by
      decide
    simp [FOutputArrays.append, DumpNodeToJSON_empty_Essentials, hess]
  · rw [Val_Name]
    have hname : ∀ Node, DumpNodeToJSON.Name Node "Branch" = "Branch" := by
      intro Node
      unfold DumpNodeToJSON.Name
      rw [if_neg (by decide)]
    rw [hname]

/-- C6, on the small catalog: the call descriptor of `Delay` meets rule (2) and is in
Essentials. -/
theorem C6_essentials_rule_witness :
    CallDescriptor demoEngine demoSystemLibrary demoDelayCall ∈
      (DumpAllNodes demoEngine).EssentialsArray :=
  ((C6_essentials_rule demoEngine).1 (CallDescriptor demoEngine demoSystemLibrary demoDelayCall)
    (by decide) (by unfold IsAccessor; decide)).mpr
    ⟨"K2Node_CallFunction", "/Script/CoreUObject.Class'/Script/Engine.KismetSystemLibrary'",
      "Delay", by decide, by decide, by decide, Or.inr (Or.inl (Or.inl rfl))⟩

/-! ## `Add_VectorVector` -/

/-- C8, refuted as stated: the accessor `Get Score` of the small catalog is emitted with an
input pin named `self` that has no `bHidden` field and carries `bIsHidden = false`. -/
theorem C8_counterexample :
    GetNode demoScore demoScoreKeeperPath demoRealPinType ∈
        (DumpAllNodes demoEngine).FullArray ∧
      SelfPin demoScoreKeeperPath ∈
        (GetNode demoScore demoScoreKeeperPath demoRealPinType).pins "Inputs" ∧
      GetField (SelfPin demoScoreKeeperPath) "PinName" = some (FJsonLeaf.String "self") ∧
      GetField (SelfPin demoScoreKeeperPath) "bHidden" = none ∧
      GetField (SelfPin demoScoreKeeperPath) "bIsHidden" = some (FJsonLeaf.Boolean false) := by
  decide

/-- C8, amended: for every pin of every descriptor emitted through `DumpNodeToJSON` (the
pins read from an instantiated node), if the pin is named `WorldContextObject` or `self`
then its `bHidden` flag is true, whatever visibility the node declared for it. -/
theorem C8_visibility_override (E : Engine) (d : FJsonObject)
    (hd : d ∈ (DumpAllNodes E).FullArray) (hacc : ¬ IsAccessor d) (p : FPinObject)
    (hp : p ∈ d.pins "Inputs" ++ d.pins "Outputs")
    (hname : GetField p "PinName" = some (FJsonLeaf.String "WorldContextObject") ∨
      GetField p "PinName" = some (FJsonLeaf.String "self")) :
    GetField p "bHidden" = some (FJsonLeaf.Boolean true) :=
  hidden_classification E d hd hacc p hp hname

/-- C8, on the small catalog: the `self` pin of the `Add_VectorVector` call node is declared
visible and is emitted hidden. -/
theorem C8_visibility_override_witness :
    (⟨"self", demoPinType "object", false, "", EEdGraphPinDirection.EGPD_Input⟩ :
        UEdGraphPin) ∈ (demoEngine.NewCallFunctionNode demoAddMath).Pins ∧
      GetField (DumpNodeToJSON.PinObj
        ⟨"self", demoPinType "object", false, "", EEdGraphPinDirection.EGPD_Input⟩) "bHidden" =
        some (FJsonLeaf.Boolean true) :=
  ⟨by decide,
    C8_visibility_override demoEngine (CallDescriptor demoEngine demoMathLibrary demoAddMath)
      (by decide) (by unfold IsAccessor; decide) _ (by decide) (Or.inr (by decide))⟩

/-! ## Accessors of a property -/

/-- C2, refuted as stated, twice: the property `OldScore` of the small catalog is flagged
`CPF_BlueprintVisible` and not `CPF_BlueprintReadOnly` (it is deprecated), and the run emits
neither a VariableGet nor a VariableSet descriptor for it; the property `Health` of the
skeleton class `SKEL_Enemy_C` is visible, mutable and not deprecated, and the run on its
catalog emits only the two injected nodes. -/
theorem C2_counterexample :
    (demoScoreKeeper ∈ demoEngine.Classes ∧ demoOldScore ∈ demoScoreKeeper.Properties ∧
      demoOldScore.HasAnyPropertyFlags CPF_BlueprintVisible = true ∧
      demoOldScore.HasAnyPropertyFlags CPF_BlueprintReadOnly = false ∧
      demoOldScore.HasAnyPropertyFlags CPF_Deprecated = true ∧
      (DumpAllNodes demoEngine).FullArray.filter
        (IsAccessorFor "K2Node_VariableGet" demoScoreKeeper demoOldScore) = [] ∧
      (DumpAllNodes demoEngine).FullArray.filter
        (IsAccessorFor "K2Node_VariableSet" demoScoreKeeper demoOldScore) = []) ∧
    (demoSkelEnemy ∈ demoSkelEngine.Classes ∧ demoEnemyHealth ∈ demoSkelEnemy.Properties ∧
      demoEnemyHealth.HasAnyPropertyFlags CPF_BlueprintVisible = true ∧
      demoEnemyHealth.HasAnyPropertyFlags CPF_BlueprintReadOnly = false ∧
      demoEnemyHealth.HasAnyPropertyFlags CPF_Deprecated = false ∧
      (DumpAllNodes demoSkelEngine).FullArray.filter
        (IsAccessorFor "K2Node_VariableGet" demoSkelEnemy demoEnemyHealth) = [] ∧
      (DumpAllNodes demoSkelEngine).FullArray.filter
        (IsAccessorFor "K2Node_VariableSet" demoSkelEnemy demoEnemyHealth) = [] ∧
      (DumpAllNodes demoSkelEngine).FullArray.length = 2) := by
  decide

/-- C2, amended: in a well-formed catalog, for every property declared on a class that the
class filter does not skip (line 144: the class name starts, in no letter case, with
`SKEL_` or `REINST_`), flagged `CPF_BlueprintVisible`, not `CPF_Deprecated` and not
`CPF_BlueprintReadOnly`, the Full array holds exactly one VariableGet descriptor and exactly
one VariableSet descriptor for that property, and the VariableSet descriptor has one output
pin more than the VariableGet descriptor. -/
theorem C2_one_getter_one_setter (E : Engine) (hwf : WellFormed E) (C : UClass)
    (hC : C ∈ E.Classes) (hskip : IsSkippedClass C = false) (P : FProperty)
    (hP : P ∈ C.Properties)
    (hvis : P.HasAnyPropertyFlags CPF_BlueprintVisible = true)
    (hdep : P.HasAnyPropertyFlags CPF_Deprecated = false)
    (hro : P.HasAnyPropertyFlags CPF_BlueprintReadOnly = false) :
    ∃ g s : FJsonObject,
      (DumpAllNodes E).FullArray.filter (IsAccessorFor "K2Node_VariableGet" C P) = [g] ∧
      (DumpAllNodes E).FullArray.filter (IsAccessorFor "K2Node_VariableSet" C P) = [s] ∧
      (s.pins "Outputs").length = (g.pins "Outputs").length + 1 := by
  refine ⟨GetNode P (GetT3DPath (some C.toUObject)) (E.ConvertPropertyToPinType P),
    SetNode P (GetT3DPath (some C.toUObject)) (E.ConvertPropertyToPinType P), ?_, ?_, ?_⟩
  · rw [filter_DumpAllNodes E hwf _ C hC P hP (Or.inl rfl), hskip, PropertyLoopBody_empty,
      hvis, hdep, hro]
    have hg := (IsAccessorFor_GetNode "K2Node_VariableGet" C P P (GetT3DPath (some C.toUObject))
      (E.ConvertPropertyToPinType P)).mpr ⟨rfl, rfl, rfl⟩
    have hs : IsAccessorFor "K2Node_VariableGet" C P
        (SetNode P (GetT3DPath (some C.toUObject)) (E.ConvertPropertyToPinType P)) = false := by
      rw [← Bool.not_eq_true, IsAccessorFor_SetNode]
      rintro ⟨h, _⟩
      exact absurd h (by decide)
    simp [hg, hs]
  · rw [filter_DumpAllNodes E hwf _ C hC P hP (Or.inr rfl), hskip, PropertyLoopBody_empty,
      hvis, hdep, hro]
    have hs := (IsAccessorFor_SetNode "K2Node_VariableSet" C P P (GetT3DPath (some C.toUObject))
      (E.ConvertPropertyToPinType P)).mpr ⟨rfl, rfl, rfl⟩
    have hg : IsAccessorFor "K2Node_VariableSet" C P
        (GetNode P (GetT3DPath (some C.toUObject)) (E.ConvertPropertyToPinType P)) = false := by
      rw [← Bool.not_eq_true, IsAccessorFor_GetNode]
      rintro ⟨h, _⟩
      exact absurd h (by decide)
    simp [hg, hs]
  · simp [GetNode_eq, SetNode_eq, FJsonObject.pins, GetField]

/-- C2, on the small catalog: the property `Score` has one getter and one setter, with one
and two output pins. -/
theorem C2_one_getter_one_setter_witness :
    ∃ g s : FJsonObject,
      (DumpAllNodes demoEngine).FullArray.filter
        (IsAccessorFor "K2Node_VariableGet" demoScoreKeeper demoScore) = [g] ∧
      (DumpAllNodes demoEngine).FullArray.filter
        (IsAccessorFor "K2Node_VariableSet" demoScoreKeeper demoScore) = [s] ∧
      (s.pins "Outputs").length = (g.pins "Outputs").length + 1 :=
  C2_one_getter_one_setter demoEngine (by unfold WellFormed; decide) demoScoreKeeper (by decide)
    (by decide) demoScore (by decide) (by decide) (by decide) (by decide)

/-- C3: in a well-formed catalog, for every property flagged `CPF_BlueprintReadOnly`, no
descriptor of node type `K2Node_VariableSet` for that property is in the Full, the
Essentials or the Debug array. -/
theorem C3_read_only_has_no_setter (E : Engine) (hwf : WellFormed E) (C : UClass)
    (hC : C ∈ E.Classes) (P : FProperty) (hP : P ∈ C.Properties)
    (hro : P.HasAnyPropertyFlags CPF_BlueprintReadOnly = true) (d : FJsonObject)
    (hd : d ∈ (DumpAllNodes E).FullArray ∨ d ∈ (DumpAllNodes E).EssentialsArray ∨
      d ∈ (DumpAllNodes E).DebugArray) :
    IsAccessorFor "K2Node_VariableSet" C P d = false := by
  have hfull : d ∈ (DumpAllNodes E).FullArray := by
    rcases hd with h | h | h
    · exact h
    · exact (buckets_subset_full E).1 d h
    · exact (buckets_subset_full E).2 d h
  have hnil : (DumpAllNodes E).FullArray.filter (IsAccessorFor "K2Node_VariableSet" C P) =
      [] := by
    rw [filter_DumpAllNodes E hwf _ C hC P hP (Or.inr rfl), PropertyLoopBody_empty, hro]
    have hg : IsAccessorFor "K2Node_VariableSet" C P
        (GetNode P (GetT3DPath (some C.toUObject)) (E.ConvertPropertyToPinType P)) = false := by
      rw [← Bool.not_eq_true, IsAccessorFor_GetNode]
      rintro ⟨h, _⟩
      exact absurd h (by decide)
    split_ifs <;> simp_all [FOutputArrays.empty]
  rw [← Bool.not_eq_true]
  intro hq
  have : d ∈ (DumpAllNodes E).FullArray.filter (IsAccessorFor "K2Node_VariableSet" C P) :=
    List.mem_filter.mpr ⟨hfull, hq⟩
  rw [hnil] at this
  exact absurd this (List.not_mem_nil _)

/-- C3, on the small catalog: the getter of the read-only property `bDrawDebug` is emitted
and is not a setter of it. -/
theorem C3_read_only_has_no_setter_witness :
    GetNode demoDrawDebug demoScoreKeeperPath demoRealPinType ∈
        (DumpAllNodes demoEngine).FullArray ∧
      IsAccessorFor "K2Node_VariableSet" demoScoreKeeper demoDrawDebug
        (GetNode demoDrawDebug demoScoreKeeperPath demoRealPinType) = false :=
  ⟨by decide,
    C3_read_only_has_no_setter demoEngine (by unfold WellFormed; decide) demoScoreKeeper
      (by decide) demoDrawDebug (by decide) (by decide) _ (Or.inl (by decide))⟩

/-- C4: for every property `P` declared on a class that is not skipped, flagged
`CPF_BlueprintVisible`, not `CPF_Deprecated` and not `CPF_BlueprintReadOnly`, the Full array
holds, one right after the other, a descriptor named `Get P` whose inputs are exactly one
pin named `self` and whose outputs are exactly one pin named `P` with `bIsConst = true`, and
a descriptor named `Set P` whose inputs are exactly the pins `execute`, `self`, `P` in that
order and whose outputs are exactly the pins `then`, `Output_P` in that order; the value
pins carry the category and subcategory resolved for `P`, its referenced type in the
type-path rendering of the specification (`None` when there is none) and its container
shape under the names `None`, `Array`, `Set`, `Map`. -/
theorem C4_get_then_set (E : Engine) (C : UClass) (hC : C ∈ E.Classes)
    (hskip : IsSkippedClass C = false) (P : FProperty) (hP : P ∈ C.Properties)
    (hvis : P.HasAnyPropertyFlags CPF_BlueprintVisible = true)
    (hdep : P.HasAnyPropertyFlags CPF_Deprecated = false)
    (hro : P.HasAnyPropertyFlags CPF_BlueprintReadOnly = false) :
    ∃ (pre post : List FJsonObject) (g s : FJsonObject),
      (DumpAllNodes E).FullArray = pre ++ g :: s :: post ∧
      GetField g "Name" = some (FJsonValue.String ("Get " ++ P.Name)) ∧
      PinNames (g.pins "Inputs") = [some (FJsonLeaf.String "self")] ∧
      (∃ v, g.pins "Outputs" = [v] ∧
        GetField v "PinName" = some (FJsonLeaf.String P.Name) ∧
        GetField v "bIsConst" = some (FJsonLeaf.Boolean true) ∧
        CarriesPinType v (E.ConvertPropertyToPinType P)) ∧
      GetField s "Name" = some (FJsonValue.String ("Set " ++ P.Name)) ∧
      (∃ e sp v, s.pins "Inputs" = [e, sp, v] ∧
        GetField e "PinName" = some (FJsonLeaf.String "execute") ∧
        GetField sp "PinName" = some (FJsonLeaf.String "self") ∧
        GetField v "PinName" = some (FJsonLeaf.String P.Name) ∧
        CarriesPinType v (E.ConvertPropertyToPinType P)) ∧
      (∃ t v, s.pins "Outputs" = [t, v] ∧
        GetField t "PinName" = some (FJsonLeaf.String "then") ∧
        GetField v "PinName" = some (FJsonLeaf.String ("Output_" ++ P.Name)) ∧
        CarriesPinType v (E.ConvertPropertyToPinType P)) := by
  obtain ⟨pre, post, hfull⟩ := (PropertyLoopBody_within E hC hskip hP).full
  rw [PropertyLoopBody_empty, hvis, hdep, hro] at hfull
  refine ⟨pre, post, _, _, by simpa using hfull, ?_, ?_, ?_, ?_, ?_, ?_⟩
  · simp [GetNode_eq, GetField]
  · simp [GetNode_eq, SelfPin_eq, GetField, FJsonObject.pins, PinNames]
  · exact ⟨OutPin P.Name (E.ConvertPropertyToPinType P),
      by simp [GetNode_eq, GetField, FJsonObject.pins],
      by simp [OutPin_eq, GetField], by simp [OutPin_eq, GetField],
      by simp [CarriesPinType, OutPin_eq, GetField, GetT3DPath_eq_ReferencedTypePath,
        GetContainerTypeString_eq_ContainerShapeName]⟩
  · simp [SetNode_eq, GetField]
  · exact ⟨ExecIn, SelfPin (GetT3DPath (some C.toUObject)),
      ValIn P.Name (E.ConvertPropertyToPinType P),
      by simp [SetNode_eq, GetField, FJsonObject.pins],
      by simp [ExecIn_eq, GetField], by simp [SelfPin_eq, GetField],
      by simp [ValIn_eq, GetField],
      by simp [CarriesPinType, ValIn_eq, GetField, GetT3DPath_eq_ReferencedTypePath,
        GetContainerTypeString_eq_ContainerShapeName]⟩
  · exact ⟨ExecOut, ValOut P.Name (E.ConvertPropertyToPinType P),
      by simp [SetNode_eq, GetField, FJsonObject.pins],
      by simp [ExecOut_eq, GetField], by simp [ValOut_eq, GetField],
      by simp [CarriesPinType, ValOut_eq, GetField, GetT3DPath_eq_ReferencedTypePath,
        GetContainerTypeString_eq_ContainerShapeName]⟩

/-- C4, on two catalogs: the numeric property `Score` yields `Get Score` with one input
and one output, then `Set Score` with three inputs and two outputs, its value pin typed
`real`/`double` with no referenced type and no container; the property `Waypoints`, an
array of `FVector`, yields a setter whose value pin carries the struct path and `Array`. -/
theorem C4_get_then_set_witness :
    (∃ (pre post : List FJsonObject) (g s : FJsonObject) (v : FPinObject),
      (DumpAllNodes demoEngine).FullArray = pre ++ g :: s :: post ∧
      GetField g "Name" = some (FJsonValue.String "Get Score") ∧
      (g.pins "Inputs").length = 1 ∧ g.pins "Outputs" = [v] ∧
      GetField s "Name" = some (FJsonValue.String "Set Score") ∧
      (s.pins "Inputs").length = 3 ∧ (s.pins "Outputs").length = 2 ∧
      GetField v "bIsConst" = some (FJsonLeaf.Boolean true) ∧
      GetField v "PinCategory" = some (FJsonLeaf.String "real") ∧
      GetField v "PinSubCategory" = some (FJsonLeaf.String "double") ∧
      GetField v "PinSubCategoryObject" = some (FJsonLeaf.String "None") ∧
      GetField v "ContainerType" = some (FJsonLeaf.String "None")) ∧
    (∃ (pre post : List FJsonObject) (g s : FJsonObject) (e sp w : FPinObject),
      (DumpAllNodes demoPatrolEngine).FullArray = pre ++ g :: s :: post ∧
      s.pins "Inputs" = [e, sp, w] ∧
      GetField w "PinName" = some (FJsonLeaf.String "Waypoints") ∧
      GetField w "PinCategory" = some (FJsonLeaf.String "struct") ∧
      GetField w "PinSubCategoryObject" = some (FJsonLeaf.String
        "/Script/CoreUObject.ScriptStruct'/Script/CoreUObject.Vector'") ∧
      GetField w "ContainerType" = some (FJsonLeaf.String "Array")) := by
  constructor
  · obtain ⟨pre, post, g, s, hfull, hg, hgi, ⟨v, hgo, _, hconst, hc1, hc2, hc3, hc4⟩, hs,
        ⟨e, sp, w, hsi, _⟩, ⟨t, u, hso, _⟩⟩ :=
      C4_get_then_set demoEngine demoScoreKeeper (by decide) (by decide) demoScore (by decide)
        (by decide) (by decide) (by decide)
    refine ⟨pre, post, g, s, v, hfull, hg, ?_, hgo, hs, ?_, ?_, hconst, hc1, hc2, hc3, hc4⟩
    · have := congrArg List.length hgi
      simpa [PinNames] using this
    · rw [hsi]; rfl
    · rw [hso]; rfl
  · obtain ⟨pre, post, g, s, hfull, _, _, _, _, ⟨e, sp, w, hsi, _, _, hw, hc1, _, hc3, hc4⟩,
        _⟩ :=
      C4_get_then_set demoPatrolEngine demoPatrol (by decide) (by decide) demoWaypoints
        (by decide) (by decide) (by decide) (by decide)
    exact ⟨pre, post, g, s, e, sp, w, hfull, hsi, hw, hc1, hc3, hc4⟩

/-! ## Unresolved type references -/

/-- C9, refuted as stated: `GetT3DPath` renders an absent type object as `None`, not as the
empty string; in the run on the small catalog the pin type of `Score` refers to no type
object and the value pin of `Get Score` is emitted with `PinSubCategoryObject = "None"`. -/
theorem C9_counterexample :
    (demoEngine.ConvertPropertyToPinType demoScore).PinSubCategoryObject = none ∧
      GetNode demoScore demoScoreKeeperPath demoRealPinType ∈
        (DumpAllNodes demoEngine).FullArray ∧
      OutPin "Score" demoRealPinType ∈
        (GetNode demoScore demoScoreKeeperPath demoRealPinType).pins "Outputs" ∧
      GetField (OutPin "Score" demoRealPinType) "PinSubCategoryObject" =
        some (FJsonLeaf.String "None") ∧
      GetField (OutPin "Score" demoRealPinType) "PinSubCategoryObject" ≠
        some (FJsonLeaf.String "") ∧
      GetT3DPath none ≠ "" := by
  decide

/-- C9, amended: a pin whose type refers to no type object is emitted with
`PinSubCategoryObject = "None"` wherever the field is rendered by `GetT3DPath`, and its
descriptor is still put into Full: (1) `GetT3DPath` of an absent object is `None`; (2) for
every node the run dumps (calls, events, the two injected nodes), the descriptor is in the
Full array of the run, and each pin of the node with no type object is among its inputs and
outputs and carries `None`; (3) the same holds of any single call of `DumpNodeToJSON`;
(4) for a visible, non-deprecated property of a class that is not skipped whose pin type
has no type object, the getter is in the Full array of the run and its one output pin
carries `None`, and, when the property is not read-only, the setter is in the Full array
and its value input pin and its pass-through output pin carry `None`. -/
theorem C9_unresolved_type_is_None (E : Engine) :
    GetT3DPath none = "None" ∧
    (∀ (Node : UK2Node) (t m f : String), IsDumpCall E Node t m f →
      ∀ Pin ∈ Node.Pins, Pin.PinType.PinSubCategoryObject = none →
        DumpNodeToJSON.Val Node t m f ∈ (DumpAllNodes E).FullArray ∧
        DumpNodeToJSON.PinObj Pin ∈ (DumpNodeToJSON.Val Node t m f).pins "Inputs" ++
          (DumpNodeToJSON.Val Node t m f).pins "Outputs" ∧
        GetField (DumpNodeToJSON.PinObj Pin) "PinSubCategoryObject" =
          some (FJsonLeaf.String "None")) ∧
    (∀ (a : FOutputArrays) (Node : UK2Node) (t m f : String) (Pin : UEdGraphPin),
      Pin ∈ Node.Pins → Pin.PinType.PinSubCategoryObject = none →
        DumpNodeToJSON.Val Node t m f ∈ (DumpNodeToJSON a Node t m f).FullArray ∧
        DumpNodeToJSON.PinObj Pin ∈ (DumpNodeToJSON.Val Node t m f).pins "Inputs" ++
          (DumpNodeToJSON.Val Node t m f).pins "Outputs" ∧
        GetField (DumpNodeToJSON.PinObj Pin) "PinSubCategoryObject" =
          some (FJsonLeaf.String "None")) ∧
    (∀ C ∈ E.Classes, IsSkippedClass C = false → ∀ P ∈ C.Properties,
      P.HasAnyPropertyFlags CPF_BlueprintVisible = true →
      P.HasAnyPropertyFlags CPF_Deprecated = false →
      (E.ConvertPropertyToPinType P).PinSubCategoryObject = none →
        (GetNode P (GetT3DPath (some C.toUObject)) (E.ConvertPropertyToPinType P) ∈
            (DumpAllNodes E).FullArray ∧
          ∃ v, (GetNode P (GetT3DPath (some C.toUObject))
              (E.ConvertPropertyToPinType P)).pins "Outputs" = [v] ∧
            GetField v "PinName" = some (FJsonLeaf.String P.Name) ∧
            GetField v "PinSubCategoryObject" = some (FJsonLeaf.String "None")) ∧
        (P.HasAnyPropertyFlags CPF_BlueprintReadOnly = false →
          SetNode P (GetT3DPath (some C.toUObject)) (E.ConvertPropertyToPinType P) ∈
            (DumpAllNodes E).FullArray ∧
          (∃ e sp v, (SetNode P (GetT3DPath (some C.toUObject))
              (E.ConvertPropertyToPinType P)).pins "Inputs" = [e, sp, v] ∧
            GetField v "PinName" = some (FJsonLeaf.String P.Name) ∧
            GetField v "PinSubCategoryObject" = some (FJsonLeaf.String "None")) ∧
          (∃ t v, (SetNode P (GetT3DPath (some C.toUObject))
              (E.ConvertPropertyToPinType P)).pins "Outputs" = [t, v] ∧
            GetField v "PinName" = some (FJsonLeaf.String ("Output_" ++ P.Name)) ∧
            GetField v "PinSubCategoryObject" = some (FJsonLeaf.String "None")))) := by
  refine ⟨rfl, ?_, ?_, ?_⟩
  · intro Node t m f hcall Pin hPin hnone
    refine ⟨(IsDumpCall_within E Node t m f hcall).full_mem ?_, ?_, ?_⟩
    · rw [DumpNodeToJSON_empty_Full]
      exact List.mem_singleton_self _
    · rw [Val_Inputs, Val_Outputs]
      exact Pins_foldl_of_mem Node.Pins ([], []) Pin hPin
    · rw [PinObj_PinSubCategoryObject, hnone]
      rfl
  · intro a Node t m f Pin hPin hnone
    refine ⟨?_, ?_, ?_⟩
    · rw [DumpNodeToJSON_append]
      simp [FOutputArrays.append, DumpNodeToJSON_empty_Full]
    · rw [Val_Inputs, Val_Outputs]
      exact Pins_foldl_of_mem Node.Pins ([], []) Pin hPin
    · rw [PinObj_PinSubCategoryObject, hnone]
      rfl
  · intro C hC hskip P hP hvis hdep hnone
    have hin := PropertyLoopBody_within E hC hskip hP
    rw [PropertyLoopBody_empty, hvis, hdep] at hin
    refine ⟨⟨hin.full_mem ?_, OutPin P.Name (E.ConvertPropertyToPinType P), ?_, ?_, ?_⟩,
      fun hro => ?_⟩
    · cases P.HasAnyPropertyFlags CPF_BlueprintReadOnly <;> simp
    · simp [GetNode_eq, GetField, FJsonObject.pins]
    · simp [OutPin_eq, GetField]
    · simp [OutPin_eq, GetField, hnone, GetT3DPath]
    · rw [hro] at hin
      refine ⟨hin.full_mem (by simp), ⟨ExecIn, SelfPin (GetT3DPath (some C.toUObject)),
        ValIn P.Name (E.ConvertPropertyToPinType P), ?_, ?_, ?_⟩,
        ⟨ExecOut, ValOut P.Name (E.ConvertPropertyToPinType P), ?_, ?_, ?_⟩⟩
      · simp [SetNode_eq, GetField, FJsonObject.pins]
      · simp [ValIn_eq, GetField]
      · simp [ValIn_eq, GetField, hnone, GetT3DPath]
      · simp [SetNode_eq, GetField, FJsonObject.pins]
      · simp [ValOut_eq, GetField]
      · simp [ValOut_eq, GetField, hnone, GetT3DPath]

/-- C9, on the small catalog: the call descriptor of `Add_VectorVector` is in Full and its
`execute` pin, which has no type object, carries `None`; the setter of `Score`, whose pin
type refers to no type object, is in Full and its value input pin carries `None`. -/
theorem C9_unresolved_type_is_None_witness :
    (CallDescriptor demoEngine demoMathLibrary demoAddMath ∈
        (DumpAllNodes demoEngine).FullArray ∧
      GetField (DumpNodeToJSON.PinObj
          ⟨"execute", demoPinType "exec", false, "", EEdGraphPinDirection.EGPD_Input⟩)
        "PinSubCategoryObject" = some (FJsonLeaf.String "None")) ∧
    (SetNode demoScore demoScoreKeeperPath demoRealPinType ∈
        (DumpAllNodes demoEngine).FullArray ∧
      ∃ e sp v, (SetNode demoScore demoScoreKeeperPath demoRealPinType).pins "Inputs" =
          [e, sp, v] ∧
        GetField v "PinName" = some (FJsonLeaf.String "Score") ∧
        GetField v "PinSubCategoryObject" = some (FJsonLeaf.String "None")) :=
  ⟨by
      have h := (C9_unresolved_type_is_None demoEngine).2.1
        (demoEngine.NewCallFunctionNode demoAddMath) "K2Node_CallFunction"
        (GetT3DPath (some demoMathLibrary.toUObject)) demoAddMath.Name
        (Or.inl ⟨demoMathLibrary, by decide, by decide, demoAddMath, by decide, by decide,
          by decide, rfl, rfl, rfl, rfl⟩)
        ⟨"execute", demoPinType "exec", false, "", EEdGraphPinDirection.EGPD_Input⟩
        (by decide) (by decide)
      exact ⟨h.1, h.2.2⟩,
    by
      have h := ((C9_unresolved_type_is_None demoEngine).2.2.2 demoScoreKeeper (by decide)
        (by decide) demoScore (by decide) (by decide) (by decide) (by decide)).2 (by decide)
      exact ⟨h.1, h.2.1⟩⟩

/-! ## Pin names of the accessors -/

/-- C10, refuted as stated: the run on the small catalog emits the setter of the property
named `execute`, and its input pins `execute`, `self`, `execute` repeat a name. -/
theorem C10_counterexample :
    SetNode demoExecute demoScoreKeeperPath demoRealPinType ∈
        (DumpAllNodes demoEngine).FullArray ∧
      PinNames ((SetNode demoExecute demoScoreKeeperPath demoRealPinType).pins "Inputs") =
        [some (FJsonLeaf.String "execute"), some (FJsonLeaf.String "self"),
          some (FJsonLeaf.String "execute")] ∧
      ¬ (PinNames
        ((SetNode demoExecute demoScoreKeeperPath demoRealPinType).pins "Inputs")).Nodup := by
  decide

/-- C10, amended: for every property, the input pin names of its getter, the output pin
names of its getter and the output pin names of its setter are pairwise distinct; the input
pin names of its setter are pairwise distinct if and only if the property is named neither
`execute` nor `self`. -/
theorem C10_accessor_pin_names (P : FProperty) (MemberPath : String)
    (PinType : FEdGraphPinType) :
    (PinNames ((GetNode P MemberPath PinType).pins "Inputs")).Nodup ∧
    (PinNames ((GetNode P MemberPath PinType).pins "Outputs")).Nodup ∧
    (PinNames ((SetNode P MemberPath PinType).pins "Outputs")).Nodup ∧
    ((PinNames ((SetNode P MemberPath PinType).pins "Inputs")).Nodup ↔
      P.Name ≠ "execute" ∧ P.Name ≠ "self") := by
  have hthen : ¬ "then" = "Output_" ++ P.Name := by
    intro h
    have := congrArg String.data h
    simp at this
  refine ⟨?_, ?_, ?_, ?_⟩
  · simp [GetNode_eq, SelfPin_eq, GetField, FJsonObject.pins, PinNames]
  · simp [GetNode_eq, OutPin_eq, GetField, FJsonObject.pins, PinNames]
  · simp [SetNode_eq, ExecOut_eq, ValOut_eq, GetField, FJsonObject.pins, PinNames, hthen]
  · simp [SetNode_eq, ExecIn_eq, SelfPin_eq, ValIn_eq, GetField, FJsonObject.pins, PinNames]
    constructor
    · rintro ⟨h1, h2⟩
      exact ⟨fun h => h1 h.symm, fun h => h2 h.symm⟩
    · rintro ⟨h1, h2⟩
      exact ⟨fun h => h1 h.symm, fun h => h2 h.symm⟩

/-- C10, on the small catalog: the setter of `Score` has pairwise distinct input pin
names. -/
theorem C10_accessor_pin_names_witness :
    (PinNames ((SetNode demoScore demoScoreKeeperPath demoRealPinType).pins "Inputs")).Nodup :=
  (C10_accessor_pin_names demoScore demoScoreKeeperPath demoRealPinType).2.2.2.mpr
    ⟨by decide, by decide⟩

end NodeDumper
